import Mathlib

/-!
# twrap: socket construction and readiness multiplexing

A shallow embedding of `src/twrap.c` (POSIX branch of the `#ifdef _WIN32`
conditionals) and `src/twrap.h`.

* Every operating-system call made by `twrapSocket` is recorded, in order and
  with its arguments, in a trace (`List Call`).  The values the calls return are
  supplied by an `OSOutcomes` record, one field per call site: each call site is
  reached at most once per invocation, so quantifying over the record covers
  every behaviour of the operating system.
* C `int` values are `Int`.  In `twrapSocket` they are only compared with
  constants; in `twrapSelect` and `twrapMultiSelect` the addition `sock + 1` is
  `int_add`, which is undefined (`none`) on overflow.
* A finite `double` is given by its exact value in `ℚ`.  Every arithmetic
  operation and every conversion from an integer is rounded by a function `fl`;
  `roundDouble` is the rounding of IEEE-754 binary64, round to nearest, ties to
  even.  A conversion from `double` to `long` truncates toward zero and is
  undefined (`none`) out of range (`double_to_long`).
* `fd_set` is an array of `FD_SETSIZE` bits: `FD_ZERO` clears it and `FD_SET` sets
  one bit, and is undefined (`none`) outside the array.
* The constants of the system headers (`AF_INET6`, `AI_PASSIVE`, ...) are not
  defined in the repository; they are the fields of a `SysConsts` parameter.
-/

namespace Twrap

/-! ## Constants of `twrap.h` -/

/-- Blocking policy: `#define TWRAP_NOBLOCK 0`. -/
def TWRAP_NOBLOCK : Int := 0
/-- Blocking policy: `#define TWRAP_BLOCK 1`. -/
def TWRAP_BLOCK : Int := 1
/-- Mode: `#define TWRAP_LISTEN 0`. -/
def TWRAP_LISTEN : Int := 0
/-- Mode: `#define TWRAP_CONNECT 1`. -/
def TWRAP_CONNECT : Int := 1

/-! ## System-header types and constants -/

/-- Values of the system-header constants that `twrap.c` refers to. -/
structure SysConsts where
  AI_PASSIVE : Int
  AF_UNSPEC : Int
  AF_INET6 : Int
  SOCK_STREAM : Int
  IPPROTO_IPV6 : Int
  IPV6_V6ONLY : Int
  IPPROTO_TCP : Int
  TCP_NODELAY : Int
  F_SETFL : Int
  O_NONBLOCK : Int
deriving DecidableEq, Repr

/-- The values these constants have in the Linux headers. -/
def linuxConsts : SysConsts :=
  { AI_PASSIVE := 1, AF_UNSPEC := 0, AF_INET6 := 10, SOCK_STREAM := 1,
    IPPROTO_IPV6 := 41, IPV6_V6ONLY := 26, IPPROTO_TCP := 6, TCP_NODELAY := 1,
    F_SETFL := 4, O_NONBLOCK := 2048 }

/-- A socket address (`struct sockaddr`), as its raw bytes. -/
abbrev sockaddr := List Nat

/-- One node of `struct addrinfo`.  The `ai_next` link is the position of the
node in a list of nodes; a `NULL` pointer field is `none`. -/
structure addrinfo where
  ai_flags : Int
  ai_family : Int
  ai_socktype : Int
  ai_protocol : Int
  ai_addrlen : Nat
  ai_addr : Option sockaddr
  ai_canonname : Option String
deriving DecidableEq, Repr

/-- An operating-system call issued by `twrap.c`, with its arguments. -/
inductive Call where
  | getaddrinfo (host serv : Option String) (hint : addrinfo)
  | socket (domain ty protocol : Int)
  | setsockopt (sock level optname optval : Int)
  | bind (sock : Int) (addr : Option sockaddr) (addrlen : Nat)
  | listen (sock backlog : Int)
  | fcntl (sock cmd arg extra : Int)
  | connect (sock : Int) (addr : Option sockaddr) (addrlen : Nat)
  | close (sock : Int)
  | freeaddrinfo (res : List addrinfo)
deriving DecidableEq, Repr

/-- What the operating system answers at each call site of `twrapSocket`.
`result` is the first node of the list `getaddrinfo` stores through its last
argument and `result_next` the nodes reachable from it through `ai_next`. -/
structure OSOutcomes where
  getaddrinfo : Int
  result : addrinfo
  result_next : List addrinfo
  socket : Int
  setsockopt_v6only : Int
  setsockopt_nodelay : Int
  bind : Int
  listen : Int
  fcntl : Int
  connect : Int
deriving DecidableEq, Repr

/-! ## `twrapClose` and `twrapSocket` -/

/-- The function `twrapClose`: `close(sock);` appended to the trace `tr`. -/
def twrapClose (sock : Int) (tr : List Call) : List Call :=
  tr ++ [Call.close sock]

/-- The statement of lines 56 to 59: the calls made by
`if (result->ai_family == AF_INET6) { int no = 0; setsockopt(sock, IPPROTO_IPV6, IPV6_V6ONLY, (void*)&no, sizeof(no)); }`.
The value `setsockopt` returns (`os.setsockopt_v6only`) is discarded. -/
def v6onlyStep (K : SysConsts) (sock : Int) (result : addrinfo) : List Call :=
  if result.ai_family = K.AF_INET6 then
    [Call.setsockopt sock K.IPPROTO_IPV6 K.IPV6_V6ONLY 0]
  else []

/-- The condition of line 63,
`(mode == TWRAP_LISTEN)&&((bind(sock, ...))||(listen(sock, 64)))`:
its truth value and the calls its short-circuit evaluation makes. -/
def bindListenFails (os : OSOutcomes) (mode sock : Int) (result : addrinfo) :
    Bool × List Call :=
  if mode = TWRAP_LISTEN then
    if os.bind ≠ 0 then
      (true, [Call.bind sock result.ai_addr result.ai_addrlen])
    else
      (decide (os.listen ≠ 0),
        [Call.bind sock result.ai_addr result.ai_addrlen, Call.listen sock 64])
  else (false, [])

/-- The tests of lines 69 and 74,
`block == TWRAP_NOBLOCK` and then `fcntl(sock, F_SETFL, O_NONBLOCK, 1) == -1`:
whether both hold and the calls made. -/
def nonblockFails (K : SysConsts) (os : OSOutcomes) (block sock : Int) :
    Bool × List Call :=
  if block = TWRAP_NOBLOCK then
    (decide (os.fcntl = -1), [Call.fcntl sock K.F_SETFL K.O_NONBLOCK 1])
  else (false, [])

/-- The condition of line 82,
`(mode == TWRAP_CONNECT)&&(connect(sock, ...))&&(block == TWRAP_BLOCK)`:
its truth value and the calls its short-circuit evaluation makes. -/
def connectFails (os : OSOutcomes) (block mode sock : Int) (result : addrinfo) :
    Bool × List Call :=
  if mode = TWRAP_CONNECT then
    if os.connect ≠ 0 then
      (decide (block = TWRAP_BLOCK),
        [Call.connect sock result.ai_addr result.ai_addrlen])
    else (false, [Call.connect sock result.ai_addr result.ai_addrlen])
  else (false, [])

/-- The declarations of lines 44 and 45:
`flags = (mode == TWRAP_LISTEN) ? AI_PASSIVE : 0` and
`hint = {flags, AF_UNSPEC, SOCK_STREAM, 0, 0, NULL, NULL, NULL}`. -/
def resolutionHint (K : SysConsts) (mode : Int) : addrinfo :=
  let flags : Int := if mode = TWRAP_LISTEN then K.AI_PASSIVE else 0
  ⟨flags, K.AF_UNSPEC, K.SOCK_STREAM, 0, 0, none, none⟩

/-- The function `twrapSocket`: the value it returns and the trace of the
operating-system calls it makes, in order. -/
def twrapSocket (K : SysConsts) (os : OSOutcomes) (block nagle mode : Int)
    (host serv : Option String) : Int × List Call :=
  let hint : addrinfo := resolutionHint K mode
  -- get address info
  let tr := [Call.getaddrinfo host serv hint]
  if os.getaddrinfo ≠ 0 then (-1, tr)
  else
    let result := os.result
    -- create socket
    let tr := tr ++ [Call.socket result.ai_family result.ai_socktype result.ai_protocol]
    let sock := os.socket
    if sock = -1 then (-1, tr)
    else
      -- make sure IPV6_ONLY is disabled
      let tr := tr ++ v6onlyStep K sock result
      -- set TCP_NODELAY based on argument (the value returned,
      -- os.setsockopt_nodelay, is discarded)
      let tr := tr ++ [Call.setsockopt sock K.IPPROTO_TCP K.TCP_NODELAY nagle]
      -- bind + listen if applicable
      let bl := bindListenFails os mode sock result
      let tr := tr ++ bl.2
      if bl.1 then (-1, twrapClose sock tr)
      else
        -- set non-blocking if needed
        let nb := nonblockFails K os block sock
        let tr := tr ++ nb.2
        if nb.1 then (-1, twrapClose sock tr)
        else
          -- connect if applicable
          let cn := connectFails os block mode sock result
          let tr := tr ++ cn.2
          if cn.1 then (-1, twrapClose sock tr)
          else
            -- free address info, return socket handle
            (sock, tr ++ [Call.freeaddrinfo (result :: os.result_next)])

/-! ## `twrapSelect` and `twrapMultiSelect` -/

/-- Smallest value of a C `int` (32 bits). -/
def INT_MIN : Int := -2147483648

/-- Largest value of a C `int` (32 bits). -/
def INT_MAX : Int := 2147483647

/-- Smallest value of `long`, the type of `time_t` and `suseconds_t` (64 bits). -/
def LONG_MIN : Int := -9223372036854775808

/-- Largest value of `long`, the type of `time_t` and `suseconds_t` (64 bits). -/
def LONG_MAX : Int := 9223372036854775807

/-- Addition of two `int` values; the result is `none` when the sum is not an
`int` (signed overflow is undefined). -/
def int_add (a b : Int) : Option Int :=
  if INT_MIN ≤ a + b ∧ a + b ≤ INT_MAX then some (a + b) else none

/-- The type `fd_set`: an array of `FD_SETSIZE` bits, given by the set of the
positions whose bit is 1. -/
abbrev fd_set (FD_SETSIZE : Nat) := Finset (Fin FD_SETSIZE)

/-- The call `FD_ZERO(&set)`: every bit is cleared. -/
def FD_ZERO (FD_SETSIZE : Nat) : fd_set FD_SETSIZE := ∅

/-- The call `FD_SET(fd, &set)`: bit `fd` is set.  The macro makes no bound check;
for `fd < 0` or `fd >= FD_SETSIZE` it writes outside the array and the result is
`none`. -/
def FD_SET {FD_SETSIZE : Nat} (fd : Int) (set : fd_set FD_SETSIZE) :
    Option (fd_set FD_SETSIZE) :=
  if h : 0 ≤ fd ∧ fd < FD_SETSIZE then some (insert ⟨fd.toNat, by omega⟩ set) else none

/-- The type `long` (64 bits), which is the type of `time_t` and `suseconds_t`. -/
abbrev long := { n : Int // LONG_MIN ≤ n ∧ n ≤ LONG_MAX }

/-- The type `struct timeval`: `time_t tv_sec` and `suseconds_t tv_usec`. -/
structure timeval where
  tv_sec : long
  tv_usec : long
deriving DecidableEq, Repr

/-- Conversion of a `double`, given by its exact value, to `long`: the fractional
part is discarded (truncation toward zero, `Int.tdiv` of numerator by
denominator); the result is `none` when the truncated value is not a `long` (the
conversion is undefined). -/
def double_to_long (x : ℚ) : Option long :=
  if h : LONG_MIN ≤ Int.tdiv x.num x.den ∧ Int.tdiv x.num x.den ≤ LONG_MAX then
    some ⟨Int.tdiv x.num x.den, h⟩
  else none

/-- The system call `select(nfds, readfds, writefds, exceptfds, timeout)`,
as a function of its arguments; a `NULL` set is `none`. -/
abbrev SelectFn (FD_SETSIZE : Nat) :=
  Int → Option (fd_set FD_SETSIZE) → Option (fd_set FD_SETSIZE) →
    Option (fd_set FD_SETSIZE) → timeval → Int

/-- The function `twrapSelect`.  A `double` is given by its exact value and `fl`
rounds the exact result of an arithmetic operation, or of a conversion from an
integer, to the `double` that the operation yields.  The result is `none` when the
behaviour is undefined. -/
def twrapSelect (fl : ℚ → ℚ) (FD_SETSIZE : Nat) (select : SelectFn FD_SETSIZE)
    (sock : Int) (timeout : ℚ) : Option Int :=
  -- fd set
  match FD_SET sock (FD_ZERO FD_SETSIZE) with
  | none => none
  | some set =>
    -- timeout
    match double_to_long timeout with
    | none => none
    | some tv_sec =>
      match double_to_long (fl (fl (timeout - fl ((tv_sec : Int) : ℚ)) * fl 1000000)) with
      | none => none
      | some tv_usec =>
        -- return
        match int_add sock 1 with
        | none => none
        | some nfds => some (select nfds (some set) none none ⟨tv_sec, tv_usec⟩)

/-- The loop of `twrapMultiSelect`,
`for (int i = 0; i < socks_size; i++) { ... }`, with `n` iterations left to run
from index `i`.  Reading `socks[i]` beyond the end of the array is `none`, and so
is an `FD_SET` outside the `fd_set`. -/
def multiSelectLoop {FD_SETSIZE : Nat} (socks : List Int) :
    Nat → Nat → Int → fd_set FD_SETSIZE → Option (Int × fd_set FD_SETSIZE)
  | 0, _, sock_max, set => some (sock_max, set)
  | n + 1, i, sock_max, set =>
    match socks[i]? with
    | none => none
    | some s =>
      match FD_SET s set with
      | none => none
      | some set2 =>
        multiSelectLoop socks n (i + 1) (if s > sock_max then s else sock_max) set2

/-- The function `twrapMultiSelect`; `socks` is the array behind the pointer, `fl`
is as in `twrapSelect`, and the result is `none` when the behaviour is undefined. -/
def twrapMultiSelect (fl : ℚ → ℚ) (FD_SETSIZE : Nat) (select : SelectFn FD_SETSIZE)
    (socks : List Int) (socks_size : Int) (timeout : ℚ) : Option Int :=
  -- fd set
  match multiSelectLoop socks socks_size.toNat 0 (-1) (FD_ZERO FD_SETSIZE) with
  | none => none
  | some (sock_max, set) =>
    -- timeout
    match double_to_long timeout with
    | none => none
    | some tv_sec =>
      match double_to_long (fl (fl (timeout - fl ((tv_sec : Int) : ℚ)) * fl 1000000)) with
      | none => none
      | some tv_usec =>
        -- return
        match int_add sock_max 1 with
        | none => none
        | some nfds => some (select nfds (some set) none none ⟨tv_sec, tv_usec⟩)

/-- A wait that returns the number of ready watched descriptors, or `-1` on
error: `readable fd` tells whether `fd` becomes readable before the timeout
elapses, and only the read set is counted (the other two sets are `NULL` in
every call made by `twrap.c`). -/
def countingSelect (FD_SETSIZE : Nat) (err : Bool) (readable : Int → Bool) :
    SelectFn FD_SETSIZE :=
  fun nfds readfds _ _ _ =>
    if err then -1
    else
      match readfds with
      | none => 0
      | some set =>
        ((set.filter (fun i : Fin FD_SETSIZE =>
          ((i : Nat) : Int) < nfds ∧ readable ((i : Nat) : Int) = true)).card : Int)

/-! ## IEEE-754 double precision -/

/-- Rounding of a rational to the nearest integer, ties to the even one. -/
def roundNearestEven (y : ℚ) : Int :=
  if y - ⌊y⌋ < 1 / 2 then ⌊y⌋
  else if 1 / 2 < y - ⌊y⌋ then ⌊y⌋ + 1
  else if ⌊y⌋ % 2 = 0 then ⌊y⌋ else ⌊y⌋ + 1

/-- The exponent of the unit in the last place of the binary64 numbers around
`x`: 53 significant bits, and `-1074` for the subnormal numbers. -/
def doubleExponent (x : ℚ) : Int := max (Int.log 2 |x| - 52) (-1074)

/-- Rounding of an exact result to IEEE-754 binary64 in the default mode, round to
nearest, ties to even, as done after every operation where `double` expressions
are evaluated in `double` (`FLT_EVAL_METHOD` 0).  Overflow is not represented:
every value rounded in `twrapSelect` and `twrapMultiSelect` is below `2 ^ 84` in
magnitude, because the timeout has passed the conversion to `long` first. -/
def roundDouble (x : ℚ) : ℚ :=
  if x = 0 then 0
  else (roundNearestEven (x / 2 ^ doubleExponent x) : ℚ) * 2 ^ doubleExponent x

/-- The finite values of type `double`: `m * 2 ^ e` with a significand `m` of at most
53 bits and `-1074 <= e <= 971`. -/
def isDouble (x : ℚ) : Prop :=
  ∃ m e : Int, |m| < 2 ^ 53 ∧ -1074 ≤ e ∧ e ≤ 971 ∧ x = m * 2 ^ e

/-- The `double` nearest to 0.3. -/
def doubleThreeTenths : ℚ := 5404319552844595 / 2 ^ 54

/-! ## Auxiliary definitions for the statements about traces -/

/-- The operating-system functions called by `twrapSocket`. -/
inductive Sys where
  | getaddrinfo | socket | setsockopt | bind | listen | fcntl | connect | close
  | freeaddrinfo
deriving DecidableEq, Repr

/-- The function a call is a call of. -/
def Call.fn : Call → Sys
  | .getaddrinfo _ _ _ => .getaddrinfo
  | .socket _ _ _ => .socket
  | .setsockopt _ _ _ _ => .setsockopt
  | .bind _ _ _ => .bind
  | .listen _ _ => .listen
  | .fcntl _ _ _ _ => .fcntl
  | .connect _ _ _ => .connect
  | .close _ => .close
  | .freeaddrinfo _ => .freeaddrinfo

/-- In the trace `tr`, every call of `a` comes before every call of `b`. -/
def Precedes (a b : Sys) (tr : List Call) : Prop :=
  ∀ (i j : Nat) (ci cj : Call),
    tr[i]? = some ci → tr[j]? = some cj → ci.fn = a → cj.fn = b → i < j

/-- Boolean form of `Precedes` on the list of called functions: no `a` at or
after a `b`. -/
def precedesB (a b : Sys) : List Sys → Bool
  | [] => true
  | x :: l => (x != b || (x != a && l.all (fun y => y != a))) && precedesB a b l

/-- The calls every run makes once the socket exists: `getaddrinfo`, `socket`,
the `IPV6_V6ONLY` step and the `TCP_NODELAY` call. -/
def setupCalls (K : SysConsts) (os : OSOutcomes) (nagle mode : Int)
    (host serv : Option String) : List Call :=
  [Call.getaddrinfo host serv (resolutionHint K mode),
    Call.socket os.result.ai_family os.result.ai_socktype os.result.ai_protocol] ++
  v6onlyStep K os.socket os.result ++
  [Call.setsockopt os.socket K.IPPROTO_TCP K.TCP_NODELAY nagle]

/-- The runs of `twrapSocket`, path by path: the conditions under which a path is
taken, the value returned and the trace.  `twrapSocket_run` proves that
`twrapSocket` always yields one of them. -/
inductive Run (K : SysConsts) (os : OSOutcomes) (block nagle mode : Int)
    (host serv : Option String) : Int × List Call → Prop where
  | resolveFail : os.getaddrinfo ≠ 0 →
      Run K os block nagle mode host serv
        (-1, [Call.getaddrinfo host serv (resolutionHint K mode)])
  | socketFail : os.getaddrinfo = 0 → os.socket = -1 →
      Run K os block nagle mode host serv
        (-1, [Call.getaddrinfo host serv (resolutionHint K mode),
          Call.socket os.result.ai_family os.result.ai_socktype os.result.ai_protocol])
  | bindFail : os.getaddrinfo = 0 → os.socket ≠ -1 → mode = TWRAP_LISTEN → os.bind ≠ 0 →
      Run K os block nagle mode host serv
        (-1, setupCalls K os nagle mode host serv ++
          [Call.bind os.socket os.result.ai_addr os.result.ai_addrlen,
            Call.close os.socket])
  | listenFail : os.getaddrinfo = 0 → os.socket ≠ -1 → mode = TWRAP_LISTEN → os.bind = 0 →
      os.listen ≠ 0 →
      Run K os block nagle mode host serv
        (-1, setupCalls K os nagle mode host serv ++
          [Call.bind os.socket os.result.ai_addr os.result.ai_addrlen,
            Call.listen os.socket 64, Call.close os.socket])
  | listenNonblockFail : os.getaddrinfo = 0 → os.socket ≠ -1 → mode = TWRAP_LISTEN →
      os.bind = 0 → os.listen = 0 → block = TWRAP_NOBLOCK → os.fcntl = -1 →
      Run K os block nagle mode host serv
        (-1, setupCalls K os nagle mode host serv ++
          [Call.bind os.socket os.result.ai_addr os.result.ai_addrlen,
            Call.listen os.socket 64, Call.fcntl os.socket K.F_SETFL K.O_NONBLOCK 1,
            Call.close os.socket])
  | listenNonblock : os.getaddrinfo = 0 → os.socket ≠ -1 → mode = TWRAP_LISTEN →
      os.bind = 0 → os.listen = 0 → block = TWRAP_NOBLOCK → os.fcntl ≠ -1 →
      Run K os block nagle mode host serv
        (os.socket, setupCalls K os nagle mode host serv ++
          [Call.bind os.socket os.result.ai_addr os.result.ai_addrlen,
            Call.listen os.socket 64, Call.fcntl os.socket K.F_SETFL K.O_NONBLOCK 1,
            Call.freeaddrinfo (os.result :: os.result_next)])
  | listenBlock : os.getaddrinfo = 0 → os.socket ≠ -1 → mode = TWRAP_LISTEN →
      os.bind = 0 → os.listen = 0 → block ≠ TWRAP_NOBLOCK →
      Run K os block nagle mode host serv
        (os.socket, setupCalls K os nagle mode host serv ++
          [Call.bind os.socket os.result.ai_addr os.result.ai_addrlen,
            Call.listen os.socket 64,
            Call.freeaddrinfo (os.result :: os.result_next)])
  | nonblockFail : os.getaddrinfo = 0 → os.socket ≠ -1 → mode ≠ TWRAP_LISTEN →
      block = TWRAP_NOBLOCK → os.fcntl = -1 →
      Run K os block nagle mode host serv
        (-1, setupCalls K os nagle mode host serv ++
          [Call.fcntl os.socket K.F_SETFL K.O_NONBLOCK 1, Call.close os.socket])
  | connectNonblock : os.getaddrinfo = 0 → os.socket ≠ -1 → mode = TWRAP_CONNECT →
      block = TWRAP_NOBLOCK → os.fcntl ≠ -1 →
      Run K os block nagle mode host serv
        (os.socket, setupCalls K os nagle mode host serv ++
          [Call.fcntl os.socket K.F_SETFL K.O_NONBLOCK 1,
            Call.connect os.socket os.result.ai_addr os.result.ai_addrlen,
            Call.freeaddrinfo (os.result :: os.result_next)])
  | otherNonblock : os.getaddrinfo = 0 → os.socket ≠ -1 → mode ≠ TWRAP_LISTEN →
      mode ≠ TWRAP_CONNECT → block = TWRAP_NOBLOCK → os.fcntl ≠ -1 →
      Run K os block nagle mode host serv
        (os.socket, setupCalls K os nagle mode host serv ++
          [Call.fcntl os.socket K.F_SETFL K.O_NONBLOCK 1,
            Call.freeaddrinfo (os.result :: os.result_next)])
  | connectBlockFail : os.getaddrinfo = 0 → os.socket ≠ -1 → mode = TWRAP_CONNECT →
      block = TWRAP_BLOCK → os.connect ≠ 0 →
      Run K os block nagle mode host serv
        (-1, setupCalls K os nagle mode host serv ++
          [Call.connect os.socket os.result.ai_addr os.result.ai_addrlen,
            Call.close os.socket])
  | connectDone : os.getaddrinfo = 0 → os.socket ≠ -1 → mode = TWRAP_CONNECT →
      block ≠ TWRAP_NOBLOCK → (os.connect = 0 ∨ block ≠ TWRAP_BLOCK) →
      Run K os block nagle mode host serv
        (os.socket, setupCalls K os nagle mode host serv ++
          [Call.connect os.socket os.result.ai_addr os.result.ai_addrlen,
            Call.freeaddrinfo (os.result :: os.result_next)])
  | otherBlock : os.getaddrinfo = 0 → os.socket ≠ -1 → mode ≠ TWRAP_LISTEN →
      mode ≠ TWRAP_CONNECT → block ≠ TWRAP_NOBLOCK →
      Run K os block nagle mode host serv
        (os.socket, setupCalls K os nagle mode host serv ++
          [Call.freeaddrinfo (os.result :: os.result_next)])

/-! ## Concrete inputs -/

/-- An IPv4 candidate for 127.0.0.1, port 80. -/
def candV4 : addrinfo := ⟨0, 2, 1, 6, 16, some [2, 0, 0, 80, 127, 0, 0, 1], none⟩

/-- An IPv6 candidate for ::1, port 80 (family 10 is `AF_INET6` on Linux). -/
def candV6 : addrinfo := ⟨0, 10, 1, 6, 28, some [10, 0, 0, 80], none⟩

/-- Every call succeeds: one IPv4 candidate, `socket` returns descriptor 3. -/
def osAllOk : OSOutcomes :=
  { getaddrinfo := 0, result := candV4, result_next := [], socket := 3,
    setsockopt_v6only := 0, setsockopt_nodelay := 0, bind := 0, listen := 0,
    fcntl := 0, connect := 0 }

/-- As `osAllOk`, except that `connect` fails. -/
def osConnectFails : OSOutcomes := { osAllOk with connect := -1 }

/-- As `osAllOk`, with an IPv6 first candidate followed by an IPv4 one. -/
def osV6 : OSOutcomes := { osAllOk with result := candV6, result_next := [candV4] }

/-! ## General lemmas -/

/-- Every call of `twrapSocket` follows one of the paths of `Run`. -/
theorem twrapSocket_run (K : SysConsts) (os : OSOutcomes) (block nagle mode : Int)
    (host serv : Option String) :
    Run K os block nagle mode host serv (twrapSocket K os block nagle mode host serv) := by
  by_cases hg : os.getaddrinfo = 0
  swap
  · have r : Run K os block nagle mode host serv _ := Run.resolveFail hg
    convert r using 1
    simp [TWRAP_LISTEN, TWRAP_CONNECT, TWRAP_BLOCK, TWRAP_NOBLOCK, twrapSocket, hg]
  by_cases hs : os.socket = -1
  · have r : Run K os block nagle mode host serv _ := Run.socketFail hg hs
    convert r using 1
    simp [TWRAP_LISTEN, TWRAP_CONNECT, TWRAP_BLOCK, TWRAP_NOBLOCK, twrapSocket, hg, hs]
  by_cases hm : mode = 0
  · have hmc : mode ≠ 1 := by rw [hm]; decide
    by_cases hb : os.bind = 0
    swap
    · have r : Run K os block nagle mode host serv _ := Run.bindFail hg hs hm hb
      convert r using 1
      simp [TWRAP_LISTEN, TWRAP_CONNECT, TWRAP_BLOCK, TWRAP_NOBLOCK, twrapSocket, twrapClose, bindListenFails, setupCalls, hg, hs, hm, hb]
    by_cases hl : os.listen = 0
    swap
    · have r : Run K os block nagle mode host serv _ := Run.listenFail hg hs hm hb hl
      convert r using 1
      simp [TWRAP_LISTEN, TWRAP_CONNECT, TWRAP_BLOCK, TWRAP_NOBLOCK, twrapSocket, twrapClose, bindListenFails, setupCalls, hg, hs, hm, hb, hl]
    by_cases hn : block = 0
    · by_cases hf : os.fcntl = -1
      · have r : Run K os block nagle mode host serv _ :=
          Run.listenNonblockFail hg hs hm hb hl hn hf
        convert r using 1
        simp [TWRAP_LISTEN, TWRAP_CONNECT, TWRAP_BLOCK, TWRAP_NOBLOCK, twrapSocket, twrapClose, bindListenFails, nonblockFails, setupCalls,
          hg, hs, hm, hb, hl, hn, hf]
      · have r : Run K os block nagle mode host serv _ :=
          Run.listenNonblock hg hs hm hb hl hn hf
        convert r using 1
        simp [TWRAP_LISTEN, TWRAP_CONNECT, TWRAP_BLOCK, TWRAP_NOBLOCK, twrapSocket, twrapClose, bindListenFails, nonblockFails, connectFails,
          setupCalls, hg, hs, hm, hb, hl, hn, hf]
    · have r : Run K os block nagle mode host serv _ := Run.listenBlock hg hs hm hb hl hn
      convert r using 1
      simp [TWRAP_LISTEN, TWRAP_CONNECT, TWRAP_BLOCK, TWRAP_NOBLOCK, twrapSocket, twrapClose, bindListenFails, nonblockFails, connectFails,
        setupCalls, hg, hs, hm, hb, hl, hn]
  · by_cases hn : block = 0
    · have hnb : block ≠ 1 := by rw [hn]; decide
      by_cases hf : os.fcntl = -1
      · have r : Run K os block nagle mode host serv _ := Run.nonblockFail hg hs hm hn hf
        convert r using 1
        simp [TWRAP_LISTEN, TWRAP_CONNECT, TWRAP_BLOCK, TWRAP_NOBLOCK, twrapSocket, twrapClose, bindListenFails, nonblockFails, setupCalls,
          hg, hs, hm, hn, hf]
      · by_cases hc : mode = 1
        · have r : Run K os block nagle mode host serv _ :=
            Run.connectNonblock hg hs hc hn hf
          convert r using 1
          by_cases hk : os.connect = 0 <;>
          simp [TWRAP_LISTEN, TWRAP_CONNECT, TWRAP_BLOCK, TWRAP_NOBLOCK, twrapSocket, twrapClose, bindListenFails, nonblockFails, connectFails,
            setupCalls, hg, hs, hn, hf, hc, hk]
        · have r : Run K os block nagle mode host serv _ :=
            Run.otherNonblock hg hs hm hc hn hf
          convert r using 1
          simp [TWRAP_LISTEN, TWRAP_CONNECT, TWRAP_BLOCK, TWRAP_NOBLOCK, twrapSocket, twrapClose, bindListenFails, nonblockFails, connectFails,
            setupCalls, hg, hs, hm, hn, hf, hc]
    · by_cases hc : mode = 1
      · by_cases hk : os.connect ≠ 0 ∧ block = 1
        · have r : Run K os block nagle mode host serv _ :=
            Run.connectBlockFail hg hs hc hk.2 hk.1
          convert r using 1
          simp [TWRAP_LISTEN, TWRAP_CONNECT, TWRAP_BLOCK, TWRAP_NOBLOCK, twrapSocket, twrapClose, bindListenFails, nonblockFails, connectFails,
            setupCalls, hg, hs, hm, hn, hc, hk.1, hk.2]
        · have hk2 : os.connect = 0 ∨ block ≠ 1 := by
            by_cases h0 : os.connect = 0
            · exact Or.inl h0
            · exact Or.inr (fun hB => hk ⟨h0, hB⟩)
          have r : Run K os block nagle mode host serv _ :=
            Run.connectDone hg hs hc hn hk2
          convert r using 1
          rcases hk2 with h0 | hB <;>
          simp [TWRAP_LISTEN, TWRAP_CONNECT, TWRAP_BLOCK, TWRAP_NOBLOCK, twrapSocket, twrapClose, bindListenFails, nonblockFails, connectFails,
            setupCalls, hg, hs, hm, hn, hc, *]
      · have r : Run K os block nagle mode host serv _ := Run.otherBlock hg hs hm hc hn
        convert r using 1
        simp [TWRAP_LISTEN, TWRAP_CONNECT, TWRAP_BLOCK, TWRAP_NOBLOCK, twrapSocket, twrapClose, bindListenFails, nonblockFails, connectFails,
          setupCalls, hg, hs, hm, hn, hc]

/-- The setup calls contain no `close`. -/
theorem close_not_mem_setupCalls (K : SysConsts) (os : OSOutcomes) (nagle mode : Int)
    (host serv : Option String) (d : Int) :
    Call.close d ∉ setupCalls K os nagle mode host serv := by
  unfold setupCalls v6onlyStep
  split_ifs <;> simp

/-- The functions called during setup. -/
theorem map_fn_setupCalls (K : SysConsts) (os : OSOutcomes) (nagle mode : Int)
    (host serv : Option String) :
    (setupCalls K os nagle mode host serv).map Call.fn
      = if os.result.ai_family = K.AF_INET6 then
          [Sys.getaddrinfo, Sys.socket, Sys.setsockopt, Sys.setsockopt]
        else [Sys.getaddrinfo, Sys.socket, Sys.setsockopt] := by
  unfold setupCalls v6onlyStep
  split_ifs <;> simp [Call.fn]

/-- A setup call is the `getaddrinfo` call, the `socket` call or a `setsockopt` call. -/
theorem fn_of_mem_setupCalls (K : SysConsts) (os : OSOutcomes) (nagle mode : Int)
    (host serv : Option String) (c : Call) (hc : c ∈ setupCalls K os nagle mode host serv) :
    c = Call.getaddrinfo host serv (resolutionHint K mode) ∨
    c = Call.socket os.result.ai_family os.result.ai_socktype os.result.ai_protocol ∨
    c.fn = Sys.setsockopt := by
  unfold setupCalls v6onlyStep at hc
  by_cases h6 : os.result.ai_family = K.AF_INET6
  · simp [h6] at hc
    rcases hc with h | h | h | h <;> simp [h, h6, Call.fn]
  · simp [h6] at hc
    rcases hc with h | h | h <;> simp [h, Call.fn]

/-- The boolean check on the called functions implies `Precedes` on the trace. -/
theorem precedes_of_precedesB (a b : Sys) (tr : List Call)
    (h : precedesB a b (tr.map Call.fn) = true) : Precedes a b tr := by
  induction tr with
  | nil => intro i j ci cj hi; simp at hi
  | cons c l ih =>
    simp only [List.map_cons, precedesB, Bool.and_eq_true, Bool.or_eq_true, bne_iff_ne,
      List.all_eq_true, List.mem_map, forall_exists_index, and_imp,
      forall_apply_eq_imp_iff₂] at h
    obtain ⟨hhead, htail⟩ := h
    intro i j ci cj hi hj ha hb
    cases j with
    | zero =>
      simp only [List.getElem?_cons_zero, Option.some.injEq] at hj
      subst hj
      rcases hhead with hne | ⟨hna, hall⟩
      · exact absurd hb hne
      · cases i with
        | zero =>
          simp only [List.getElem?_cons_zero, Option.some.injEq] at hi
          subst hi
          exact absurd ha hna
        | succ i =>
          simp only [List.getElem?_cons_succ] at hi
          exact absurd ha (hall ci (List.getElem?_mem hi))
    | succ j =>
      cases i with
      | zero => exact Nat.succ_pos j
      | succ i =>
        simp only [List.getElem?_cons_succ] at hi hj
        exact Nat.succ_lt_succ (ih htail i j ci cj hi hj ha hb)

/-- The setup calls contain the `socket` call. -/
theorem socket_mem_setupCalls (K : SysConsts) (os : OSOutcomes) (nagle mode : Int)
    (host serv : Option String) :
    Call.socket os.result.ai_family os.result.ai_socktype os.result.ai_protocol
      ∈ setupCalls K os nagle mode host serv := by
  simp [setupCalls]

/-- The setup calls contain no `bind`. -/
theorem bind_not_mem_setupCalls (K : SysConsts) (os : OSOutcomes) (nagle mode : Int)
    (host serv : Option String) (d : Int) (a : Option sockaddr) (l : Nat) :
    Call.bind d a l ∉ setupCalls K os nagle mode host serv := by
  unfold setupCalls v6onlyStep
  split_ifs <;> simp

/-- The setup calls contain no `connect`. -/
theorem connect_not_mem_setupCalls (K : SysConsts) (os : OSOutcomes) (nagle mode : Int)
    (host serv : Option String) (d : Int) (a : Option sockaddr) (l : Nat) :
    Call.connect d a l ∉ setupCalls K os nagle mode host serv := by
  unfold setupCalls v6onlyStep
  split_ifs <;> simp

/-- The candidates after the first reach `twrapSocket` only as the argument of
`freeaddrinfo`. -/
theorem twrapSocket_result_next (K : SysConsts) (os : OSOutcomes) (block nagle mode : Int)
    (host serv : Option String) (rest : List addrinfo) :
    (twrapSocket K { os with result_next := rest } block nagle mode host serv).1
      = (twrapSocket K os block nagle mode host serv).1 ∧
    (twrapSocket K { os with result_next := rest } block nagle mode host serv).2.filter
        (fun c => decide (c.fn ≠ Sys.freeaddrinfo))
      = (twrapSocket K os block nagle mode host serv).2.filter
        (fun c => decide (c.fn ≠ Sys.freeaddrinfo)) := by
  have e1 : bindListenFails { os with result_next := rest } mode os.socket os.result
      = bindListenFails os mode os.socket os.result := rfl
  have e2 : nonblockFails K { os with result_next := rest } block os.socket
      = nonblockFails K os block os.socket := rfl
  have e3 : connectFails { os with result_next := rest } block mode os.socket os.result
      = connectFails os block mode os.socket os.result := rfl
  simp only [twrapSocket, e1, e2, e3]
  split_ifs <;> simp [List.filter_append, Call.fn]

/-- The calls that can occur in a trace of `twrapSocket`. -/
theorem mem_trace_cases (K : SysConsts) (os : OSOutcomes) (block nagle mode : Int)
    (host serv : Option String) (c : Call)
    (hc : c ∈ (twrapSocket K os block nagle mode host serv).2) :
    c = Call.getaddrinfo host serv (resolutionHint K mode) ∨
    c = Call.socket os.result.ai_family os.result.ai_socktype os.result.ai_protocol ∨
    c.fn = Sys.setsockopt ∨
    c = Call.bind os.socket os.result.ai_addr os.result.ai_addrlen ∨
    c = Call.listen os.socket 64 ∨
    c = Call.fcntl os.socket K.F_SETFL K.O_NONBLOCK 1 ∨
    c = Call.connect os.socket os.result.ai_addr os.result.ai_addrlen ∨
    c = Call.close os.socket ∨
    c = Call.freeaddrinfo (os.result :: os.result_next) := by
  have h := twrapSocket_run K os block nagle mode host serv
  generalize twrapSocket K os block nagle mode host serv = r at h hc
  have hs := fn_of_mem_setupCalls K os nagle mode host serv c
  cases h
  case resolveFail => simp at hc; simp [hc]
  case socketFail => simp at hc; rcases hc with h | h <;> simp [h]
  all_goals
    rw [List.mem_append] at hc
    rcases hc with hc | hc
    · rcases hs hc with h | h | h <;> simp [h]
    · simp only [List.mem_cons, List.mem_singleton, List.not_mem_nil, or_false] at hc
      (try casesm* _ ∨ _) <;> subst_vars <;> simp [Call.fn]

/-- When the two protocol levels differ, the only `IPV6_V6ONLY` call among the
setup calls is the one of the dual-stack step. -/
theorem v6only_mem_setupCalls_iff (K : SysConsts) (os : OSOutcomes) (nagle mode : Int)
    (host serv : Option String) (hK : K.IPPROTO_IPV6 ≠ K.IPPROTO_TCP) (d v : Int) :
    Call.setsockopt d K.IPPROTO_IPV6 K.IPV6_V6ONLY v ∈ setupCalls K os nagle mode host serv ↔
      (os.result.ai_family = K.AF_INET6 ∧ d = os.socket ∧ v = 0) := by
  unfold setupCalls v6onlyStep
  by_cases h6 : os.result.ai_family = K.AF_INET6 <;> simp [h6, hK]

/-- An integer rounds to itself. -/
theorem roundNearestEven_intCast (k : Int) : roundNearestEven (k : ℚ) = k := by
  simp [roundNearestEven]

/-- Rounding to the nearest integer does not go below an integer lower bound. -/
theorem le_roundNearestEven (K : Int) (y : ℚ) (h : (K : ℚ) ≤ y) : K ≤ roundNearestEven y := by
  have hf : K ≤ ⌊y⌋ := Int.le_floor.mpr h
  unfold roundNearestEven
  split_ifs <;> omega

/-- Rounding to the nearest integer does not go above an integer upper bound. -/
theorem roundNearestEven_le (K : Int) (y : ℚ) (h : y ≤ (K : ℚ)) : roundNearestEven y ≤ K := by
  have hf : ⌊y⌋ ≤ K := Int.floor_le_iff.mpr (by linarith)
  have hfl := Int.floor_le y
  unfold roundNearestEven
  split_ifs with h1 h2 h3
  · exact hf
  · have : (⌊y⌋ : ℚ) < K := by linarith
    have : ⌊y⌋ < K := by exact_mod_cast this
    omega
  · exact hf
  · have : (⌊y⌋ : ℚ) < K := by linarith
    have : ⌊y⌋ < K := by exact_mod_cast this
    omega

/-- Rounding a value below `K + 1/2` gives at most `K`. -/
theorem roundNearestEven_le_of_lt_add_half (K : Int) (y : ℚ) (h : y < (K : ℚ) + 1 / 2) :
    roundNearestEven y ≤ K := by
  have hfl := Int.floor_le y
  have hf : ⌊y⌋ ≤ K := by
    have : (⌊y⌋ : ℚ) < (K : ℚ) + 1 := by linarith
    have : ⌊y⌋ < K + 1 := by exact_mod_cast this
    omega
  unfold roundNearestEven
  split_ifs with h1 h2 h3
  · exact hf
  · have : (⌊y⌋ : ℚ) < K := by linarith
    have : ⌊y⌋ < K := by exact_mod_cast this
    omega
  · exact hf
  · have : (⌊y⌋ : ℚ) < K := by linarith
    have : ⌊y⌋ < K := by exact_mod_cast this
    omega

/-- A value below `2 ^ (53 + e)` in magnitude is rounded on a grid at least as fine as
`2 ^ e`. -/
theorem doubleExponent_le (x : ℚ) (e : Int) (hx : x ≠ 0) (he : -1074 ≤ e)
    (h : |x| < 2 ^ (53 + e)) : doubleExponent x ≤ e := by
  have hpos : 0 < |x| := abs_pos.mpr hx
  have h2 : |x| < ((2 : ℕ) : ℚ) ^ (53 + e) := by simpa using h
  have := (Int.lt_zpow_iff_log_lt (by norm_num : 1 < 2) hpos).mp h2
  unfold doubleExponent
  omega


/-- A non-negative power of two is an integer. -/
theorem zpow_two_eq_natPow (e : Int) (he : 0 ≤ e) : (2 : ℚ) ^ e = ((2 ^ e.toNat : Int) : ℚ) := by
  have h : e = ((e.toNat : ℕ) : ℤ) := (Int.toNat_of_nonneg he).symm
  conv_lhs => rw [h]
  rw [zpow_natCast]
  push_cast
  rfl

/-- Rounding leaves a `double` unchanged. -/
theorem roundDouble_of_isDouble (x : ℚ) (h : isDouble x) : roundDouble x = x := by
  obtain ⟨m, e, hm, he, _, rfl⟩ := h
  unfold roundDouble
  split_ifs with h0
  · exact h0.symm
  · have h2 : (0 : ℚ) < 2 ^ e := by positivity
    have habs : |(m : ℚ) * 2 ^ e| < 2 ^ (53 + e) := by
      rw [abs_mul, abs_of_pos h2, zpow_add₀ (two_ne_zero)]
      have : |(m : ℚ)| < 2 ^ (53 : ℤ) := by
        have h' : ((|m| : Int) : ℚ) < ((2 ^ 53 : Int) : ℚ) := by exact_mod_cast hm
        rw [Int.cast_abs] at h'
        norm_num at h' ⊢
        exact h'
      exact mul_lt_mul_of_pos_right this h2
    have hle := doubleExponent_le _ e h0 he habs
    generalize doubleExponent ((m : ℚ) * 2 ^ e) = d at hle ⊢
    have hd : (0 : ℚ) < 2 ^ d := by positivity
    have hy : (m : ℚ) * 2 ^ e / 2 ^ d = ((m * 2 ^ (e - d).toNat : Int) : ℚ) := by
      rw [mul_div_assoc, ← zpow_sub₀ (two_ne_zero), zpow_two_eq_natPow (e - d) (by omega)]
      push_cast
      rfl
    rw [hy, roundNearestEven_intCast, ← hy]
    field_simp


/-- Below `2 ^ 53`, rounding to `double` stays between the floor and the floor plus
one. -/
theorem roundDouble_floor_bounds (x : ℚ) (h0 : 0 ≤ x) (h53 : x < 2 ^ 53) :
    (⌊x⌋ : ℚ) ≤ roundDouble x ∧ roundDouble x ≤ (⌊x⌋ : ℚ) + 1 := by
  unfold roundDouble
  split_ifs with hx
  · subst hx; simp
  · have habs : |x| < 2 ^ ((53 : ℤ) + 0) := by
      rw [abs_of_nonneg h0]; norm_num; exact h53
    have hle := doubleExponent_le x 0 hx (by norm_num) habs
    generalize doubleExponent x = d at hle ⊢
    have hP : (2 : ℚ) ^ (-d) = ((2 ^ (-d).toNat : Int) : ℚ) :=
      zpow_two_eq_natPow (-d) (by omega)
    have hd : (2 : ℚ) ^ d = (((2 ^ (-d).toNat : Int) : ℚ))⁻¹ := by
      rw [← hP, zpow_neg, inv_inv]
    generalize (2 ^ (-d).toNat : Int) = P at hP hd
    have hPpos : (0 : ℚ) < (P : ℚ) := by rw [← hP]; positivity
    rw [hd, div_inv_eq_mul]
    have hfl := Int.floor_le x
    have hfl2 := Int.lt_floor_add_one x
    have h1 : ((⌊x⌋ * P : Int) : ℚ) ≤ x * P := by
      push_cast; exact mul_le_mul_of_nonneg_right hfl hPpos.le
    have h2 : x * P ≤ (((⌊x⌋ + 1) * P : Int) : ℚ) := by
      push_cast; exact mul_le_mul_of_nonneg_right hfl2.le hPpos.le
    have k1 := le_roundNearestEven _ _ h1
    have k2 := roundNearestEven_le _ _ h2
    have k1q : ((⌊x⌋ * P : Int) : ℚ) ≤ (roundNearestEven (x * P) : ℚ) := by exact_mod_cast k1
    have k2q : (roundNearestEven (x * P) : ℚ) ≤ (((⌊x⌋ + 1) * P : Int) : ℚ) := by
      exact_mod_cast k2
    push_cast at k1q k2q
    constructor
    · rw [le_mul_inv_iff₀ hPpos]; exact k1q
    · rw [mul_inv_le_iff₀ hPpos]; exact k2q


/-- The exponent of the unit in the last place between 999999 and 1000000. -/
theorem doubleExponent_near_million (x : ℚ) (h1 : 999999 ≤ x) (h2 : x < 1000000) :
    doubleExponent x = -33 := by
  have hpos : 0 < |x| := by rw [abs_of_nonneg (by linarith)]; linarith
  have ha : |x| = x := abs_of_nonneg (by linarith)
  have l1 : (19 : ℤ) ≤ Int.log 2 |x| := by
    apply (Int.zpow_le_iff_le_log (by norm_num : 1 < 2) hpos).mp
    rw [ha]; norm_num; linarith
  have l2 : Int.log 2 |x| < (20 : ℤ) := by
    apply (Int.lt_zpow_iff_log_lt (by norm_num : 1 < 2) hpos).mp
    rw [ha]; norm_num; linarith
  unfold doubleExponent
  omega

/-- The rounded microsecond product stays below one million. -/
theorem roundDouble_lt_million (x : ℚ) (h0 : 0 ≤ x)
    (h1 : x ≤ 1000000 - 1000000 / 2 ^ 53) : roundDouble x < 1000000 := by
  by_cases hx : x < 999999
  · have hb := (roundDouble_floor_bounds x h0 (by norm_num; linarith)).2
    have hf : ⌊x⌋ < 999999 := Int.floor_lt.mpr (by push_cast; exact hx)
    have hf2 : (⌊x⌋ : ℚ) ≤ 999998 := by
      have : ⌊x⌋ ≤ 999998 := by omega
      exact_mod_cast this
    linarith
  · have hx2 : x < 1000000 := by
      have : (0 : ℚ) < 1000000 / 2 ^ 53 := by positivity
      linarith
    have hx0 : x ≠ 0 := by intro h; rw [h] at hx; norm_num at hx
    have he := doubleExponent_near_million x (not_lt.mp hx) hx2
    unfold roundDouble
    rw [if_neg hx0, he]
    have hy : x / 2 ^ (-33 : ℤ) < ((8589934591999999 : Int) : ℚ) + 1 / 2 := by
      norm_num at h1 ⊢
      linarith
    have hr := roundNearestEven_le_of_lt_add_half _ _ hy
    have hrq : (roundNearestEven (x / 2 ^ (-33 : ℤ)) : ℚ) ≤ 8589934591999999 := by
      exact_mod_cast hr
    have : (roundNearestEven (x / 2 ^ (-33 : ℤ)) : ℚ) * 2 ^ (-33 : ℤ)
        ≤ 8589934591999999 * 2 ^ (-33 : ℤ) :=
      mul_le_mul_of_nonneg_right hrq (by positivity)
    norm_num at this ⊢
    linarith


/-- The floor of a non-negative `double` is a `double`. -/
theorem isDouble_floor (t : ℚ) (hd : isDouble t) (h0 : 0 ≤ t) : isDouble (⌊t⌋ : ℚ) := by
  obtain ⟨m, e, hm, he, he2, rfl⟩ := hd
  by_cases hpos : 0 ≤ e
  · have h : (m : ℚ) * 2 ^ e = ((m * 2 ^ e.toNat : Int) : ℚ) := by
      rw [zpow_two_eq_natPow e hpos]; push_cast; rfl
    rw [h, Int.floor_intCast, ← h]
    exact ⟨m, e, hm, he, he2, rfl⟩
  · have h2 : (0 : ℚ) < 2 ^ e := by positivity
    have h2le : (2 : ℚ) ^ e ≤ 1 := zpow_le_one_of_nonpos₀ (by norm_num) (by omega)
    have hm0 : (0 : ℚ) ≤ (m : ℚ) := by
      by_contra hneg
      have : (m : ℚ) * 2 ^ e < 0 := mul_neg_of_neg_of_pos (not_le.mp hneg) h2
      linarith
    have hm0z : 0 ≤ m := by exact_mod_cast hm0
    have hle : (m : ℚ) * 2 ^ e ≤ m := by
      calc (m : ℚ) * 2 ^ e ≤ m * 1 := mul_le_mul_of_nonneg_left h2le hm0
        _ = m := mul_one _
    have hf0 : 0 ≤ ⌊(m : ℚ) * 2 ^ e⌋ := Int.floor_nonneg.mpr h0
    have hfm : ⌊(m : ℚ) * 2 ^ e⌋ ≤ m := by
      have := Int.floor_le ((m : ℚ) * 2 ^ e)
      have : ((⌊(m : ℚ) * 2 ^ e⌋ : Int) : ℚ) ≤ (m : ℚ) := by linarith
      exact_mod_cast this
    refine ⟨⌊(m : ℚ) * 2 ^ e⌋, 0, ?_, by norm_num, by norm_num, by simp⟩
    rw [abs_of_nonneg hf0]
    rw [abs_of_nonneg hm0z] at hm
    omega

/-- The fractional part of a non-negative `double` is a `double`, at most
`1 - 2 ^ (-53)`. -/
theorem isDouble_fract (t : ℚ) (hd : isDouble t) (h0 : 0 ≤ t) :
    isDouble (t - (⌊t⌋ : ℚ)) ∧ t - (⌊t⌋ : ℚ) ≤ 1 - 1 / 2 ^ 53 := by
  obtain ⟨m, e, hm, he, he2, rfl⟩ := hd
  by_cases hpos : 0 ≤ e
  · have h : (m : ℚ) * 2 ^ e = ((m * 2 ^ e.toNat : Int) : ℚ) := by
      rw [zpow_two_eq_natPow e hpos]; push_cast; rfl
    rw [h, Int.floor_intCast, sub_self]
    exact ⟨⟨0, 0, by norm_num, by norm_num, by norm_num, by simp⟩, by norm_num⟩
  · have h2 : (0 : ℚ) < 2 ^ e := by positivity
    have hm0 : (0 : ℚ) ≤ (m : ℚ) := by
      by_contra hneg
      have : (m : ℚ) * 2 ^ e < 0 := mul_neg_of_neg_of_pos (not_le.mp hneg) h2
      linarith
    have hm0z : 0 ≤ m := by exact_mod_cast hm0
    rw [abs_of_nonneg hm0z] at hm
    have hP : (2 : ℚ) ^ (-e) = ((2 ^ (-e).toNat : Int) : ℚ) :=
      zpow_two_eq_natPow (-e) (by omega)
    have hPe : (2 : ℚ) ^ e = (((2 ^ (-e).toNat : Int) : ℚ))⁻¹ := by
      rw [← hP, zpow_neg, inv_inv]
    have hn1 : 1 ≤ (-e).toNat := by omega
    have hPcases : (2 ^ (-e).toNat : Int) ≤ 2 ^ 53 ∨ (2 ^ 54 : Int) ≤ 2 ^ (-e).toNat := by
      by_cases hn : (-e).toNat ≤ 53
      · left; exact pow_le_pow_right₀ (by norm_num) hn
      · right; exact pow_le_pow_right₀ (by norm_num) (by omega)
    have hPpos : (0 : Int) < 2 ^ (-e).toNat := by positivity
    generalize (2 ^ (-e).toNat : Int) = P at hP hPe hPcases hPpos
    have hPq : (0 : ℚ) < (P : ℚ) := by exact_mod_cast hPpos
    set f := ⌊(m : ℚ) * 2 ^ e⌋ with hf
    have hfl := Int.floor_le ((m : ℚ) * 2 ^ e)
    have hfl2 := Int.lt_floor_add_one ((m : ℚ) * 2 ^ e)
    have hf0 : 0 ≤ f := Int.floor_nonneg.mpr h0
    rw [← hf] at hfl hfl2
    have hfrac : (m : ℚ) * 2 ^ e - (f : ℚ) = ((m - f * P : Int) : ℚ) * 2 ^ e := by
      rw [hPe]; push_cast; field_simp; ring
    have hlo : (0 : ℚ) ≤ ((m - f * P : Int) : ℚ) := by
      have : (0 : ℚ) ≤ ((m - f * P : Int) : ℚ) * 2 ^ e := by rw [← hfrac]; linarith
      exact nonneg_of_mul_nonneg_left this h2
    have hloz : 0 ≤ m - f * P := by exact_mod_cast hlo
    have hhi : ((m - f * P : Int) : ℚ) < (P : ℚ) := by
      have h1 : ((m - f * P : Int) : ℚ) * 2 ^ e < 1 := by rw [← hfrac]; linarith
      rw [hPe, mul_inv_lt_iff₀ hPq] at h1
      linarith
    have hhiz : m - f * P < P := by exact_mod_cast hhi
    have hfP : 0 ≤ f * P := mul_nonneg hf0 hPpos.le
    refine ⟨⟨m - f * P, e, ?_, he, he2, hfrac⟩, ?_⟩
    · rw [abs_of_nonneg hloz]; omega
    · rw [hfrac, hPe, mul_inv_le_iff₀ hPq]
      have hq1 : ((m - f * P : Int) : ℚ) ≤ (P : ℚ) - 1 := by
        have : m - f * P ≤ P - 1 := by omega
        exact_mod_cast this
      have hmq : ((m - f * P : Int) : ℚ) < 2 ^ 53 := by
        have : m - f * P < 2 ^ 53 := by omega
        exact_mod_cast this
      rcases hPcases with hc | hc
      · have hcq : (P : ℚ) ≤ 2 ^ 53 := by exact_mod_cast hc
        have : (1 - 1 / 2 ^ 53 : ℚ) * P = P - P / 2 ^ 53 := by ring
        rw [this]
        have : (P : ℚ) / 2 ^ 53 ≤ 1 := by
          rw [div_le_one (by positivity)]; exact hcq
        linarith
      · have hcq : (2 ^ 54 : ℚ) ≤ (P : ℚ) := by exact_mod_cast hc
        have : (1 - 1 / 2 ^ 53 : ℚ) * P ≥ (1 / 2) * P := by
          apply mul_le_mul_of_nonneg_right _ hPq.le
          norm_num
        have : (1 / 2 : ℚ) * P ≥ 2 ^ 53 := by
          have : (1 / 2 : ℚ) * 2 ^ 54 = 2 ^ 53 := by norm_num
          linarith
        linarith


/-- Rounding a value above `K - 1/2` gives at least `K`. -/
theorem le_roundNearestEven_of_sub_half_lt (K : Int) (y : ℚ) (h : (K : ℚ) - 1 / 2 < y) :
    K ≤ roundNearestEven y := by
  have hfl := Int.lt_floor_add_one y
  have hf : K - 1 ≤ ⌊y⌋ := by
    apply Int.le_floor.mpr
    push_cast
    linarith
  unfold roundNearestEven
  split_ifs with h1 h2 h3
  · have : ((K : Int) : ℚ) - 1 < (⌊y⌋ : ℚ) := by linarith
    have : K - 1 < ⌊y⌋ := by exact_mod_cast this
    omega
  · omega
  · have : ((K : Int) : ℚ) - 1 < (⌊y⌋ : ℚ) := by linarith
    have : K - 1 < ⌊y⌋ := by exact_mod_cast this
    omega
  · omega

/-- The exponent of the unit in the last place in the binade of `2 ^ k`. -/
theorem doubleExponent_eq (x : ℚ) (k : Int) (h1 : (2 : ℚ) ^ k ≤ |x|)
    (h2 : |x| < (2 : ℚ) ^ (k + 1)) (hk : -1022 ≤ k) : doubleExponent x = k - 52 := by
  have hpos : 0 < |x| := lt_of_lt_of_le (by positivity) h1
  have l1 : k ≤ Int.log 2 |x| := by
    apply (Int.zpow_le_iff_le_log (by norm_num : 1 < 2) hpos).mp
    simpa using h1
  have l2 : Int.log 2 |x| < k + 1 := by
    apply (Int.lt_zpow_iff_log_lt (by norm_num : 1 < 2) hpos).mp
    simpa using h2
  unfold doubleExponent
  omega

/-- Truncation toward zero is the floor on non-negative rationals. -/
theorem tdiv_num_den_of_nonneg (x : ℚ) (hx : 0 ≤ x) : Int.tdiv x.num x.den = ⌊x⌋ := by
  rw [Rat.floor_def]
  exact Int.tdiv_eq_ediv (Rat.num_nonneg.mpr hx) (Int.natCast_nonneg _)

/-- Conversion to `long` is defined on `[0, 2 ^ 63)` and is the floor. -/
theorem double_to_long_of_nonneg (x : ℚ) (h0 : 0 ≤ x) (h63 : x < 2 ^ 63) :
    ∃ v : long, double_to_long x = some v ∧ (v : Int) = ⌊x⌋ := by
  have hf0 : 0 ≤ ⌊x⌋ := Int.floor_nonneg.mpr h0
  have hf1 : ⌊x⌋ < 2 ^ 63 := Int.floor_lt.mpr (by push_cast; exact h63)
  have hr : LONG_MIN ≤ Int.tdiv x.num x.den ∧ Int.tdiv x.num x.den ≤ LONG_MAX := by
    rw [tdiv_num_den_of_nonneg x h0]
    unfold LONG_MIN LONG_MAX
    omega
  refine ⟨⟨Int.tdiv x.num x.den, hr⟩, ?_, tdiv_num_den_of_nonneg x h0⟩
  unfold double_to_long
  rw [dif_pos hr]

/-- Within the bounds `FD_SET` is defined and adds exactly `fd`. -/
theorem FD_SET_some {N : Nat} (fd : Int) (set : fd_set N) (h0 : 0 ≤ fd) (hN : fd < N) :
    ∃ set2 : fd_set N, FD_SET fd set = some set2 ∧
      ∀ i : Fin N, i ∈ set2 ↔ (i ∈ set ∨ ((i : Nat) : Int) = fd) := by
  unfold FD_SET
  rw [dif_pos ⟨h0, hN⟩]
  refine ⟨_, rfl, ?_⟩
  intro i
  rw [Finset.mem_insert, Fin.ext_iff]
  constructor
  · rintro (h | h)
    · right; simp only [] at h; omega
    · left; exact h
  · rintro (h | h)
    · right; exact h
    · left; simp only []; omega

/-- Adding one to a value in `[-1, FD_SETSIZE)` does not overflow. -/
theorem int_add_one (a : Int) (N : Nat) (h0 : -1 ≤ a) (h1 : a < N) (hN : (N : Int) ≤ INT_MAX) :
    int_add a 1 = some (a + 1) := by
  unfold int_add
  rw [if_pos]
  unfold INT_MIN
  unfold INT_MAX at hN ⊢
  omega

/-- The call made by `twrapSelect` when nothing is undefined. -/
theorem twrapSelect_eq (fl : ℚ → ℚ) (N : Nat) (s : Int) (timeout : ℚ) (sec usec : long)
    (hs0 : 0 ≤ s) (hsN : s < N) (hN : (N : Int) ≤ INT_MAX)
    (hsec : double_to_long timeout = some sec)
    (husec : double_to_long (fl (fl (timeout - fl ((sec : Int) : ℚ)) * fl 1000000)) = some usec)
    (select : SelectFn N) :
    twrapSelect fl N select s timeout
      = some (select (s + 1) (some {⟨s.toNat, by omega⟩}) none none ⟨sec, usec⟩) := by
  have hset : FD_SET s (FD_ZERO N) = some {⟨s.toNat, by omega⟩} := by
    unfold FD_SET FD_ZERO
    rw [dif_pos ⟨hs0, hsN⟩]
    rfl
  have hadd := int_add_one s N (by omega) hsN hN
  simp only [twrapSelect, hset, hsec, husec, hadd]

/-- The counting wait on the set of the single descriptor `s`. -/
theorem countingSelect_single (N : Nat) (s : Int) (hs0 : 0 ≤ s) (hsN : s < N) (err : Bool)
    (readable : Int → Bool) (tv : timeval) :
    countingSelect N err readable (s + 1) (some {⟨s.toNat, by omega⟩}) none none tv
      = if err then -1 else if readable s then 1 else 0 := by
  have hs : ((s.toNat : Nat) : Int) = s := Int.toNat_of_nonneg hs0
  cases err <;> cases hr : readable s <;>
    simp [countingSelect, Finset.filter_singleton, hs, hr]

/-- Run over a whole array of handles within `[0, FD_SETSIZE)`, the loop is defined;
it folds the maximum over the array and sets exactly the bits of the handles. -/
theorem multiSelectLoop_eq {N : Nat} (l : List Int) (hl : ∀ x ∈ l, 0 ≤ x ∧ x < N) :
    ∀ (pre : List Int) (m : Int) (set : fd_set N),
      ∃ set2 : fd_set N,
        multiSelectLoop (pre ++ l) l.length pre.length m set
          = some (l.foldl (fun m s => if s > m then s else m) m, set2) ∧
        ∀ i : Fin N, i ∈ set2 ↔ (i ∈ set ∨ ((i : Nat) : Int) ∈ l) := by
  induction l with
  | nil => intro pre m set; exact ⟨set, by simp [multiSelectLoop], by simp⟩
  | cons x l ih =>
    intro pre m set
    have hx : (pre ++ x :: l)[pre.length]? = some x := by
      rw [List.getElem?_append_right (le_refl _)]; simp
    have hlen : (pre ++ [x]).length = pre.length + 1 := by simp
    obtain ⟨setx, hsetx, hmemx⟩ :=
      FD_SET_some x set (hl x (List.mem_cons_self _ _)).1 (hl x (List.mem_cons_self _ _)).2
    obtain ⟨set2, e, hmem2⟩ :=
      ih (fun y hy => hl y (List.mem_cons_of_mem _ hy)) (pre ++ [x])
        (if x > m then x else m) setx
    rw [hlen, List.append_assoc, List.singleton_append] at e
    refine ⟨set2, ?_, ?_⟩
    · simp only [List.length_cons, multiSelectLoop, hx, hsetx, List.foldl_cons]
      exact e
    · intro i
      rw [hmem2, hmemx, List.mem_cons]
      tauto

/-- The value of `sock_max` after the loop is an upper bound of the start value
and of the handles, and is one of them. -/
theorem foldl_max_ge (l : List Int) :
    ∀ (m : Int), m ≤ l.foldl (fun m s => if s > m then s else m) m ∧
      (∀ x ∈ l, x ≤ l.foldl (fun m s => if s > m then s else m) m) ∧
      (l.foldl (fun m s => if s > m then s else m) m = m ∨
        l.foldl (fun m s => if s > m then s else m) m ∈ l) := by
  induction l with
  | nil => intro m; simp
  | cons y l ih =>
    intro m
    simp only [List.foldl_cons, List.mem_cons, forall_eq_or_imp]
    obtain ⟨h1, h2, h3⟩ := ih (if y > m then y else m)
    by_cases hy : y > m
    · simp only [hy, if_true] at h1 h2 h3 ⊢
      refine ⟨by omega, ⟨h1, h2⟩, ?_⟩
      rcases h3 with h3 | h3
      · right; left; exact h3
      · right; right; exact h3
    · simp only [hy, if_false] at h1 h2 h3 ⊢
      refine ⟨h1, ⟨by omega, h2⟩, ?_⟩
      rcases h3 with h3 | h3
      · left; exact h3
      · right; right; exact h3

/-- The call made by `twrapMultiSelect` when nothing is undefined. -/
theorem twrapMultiSelect_eq (fl : ℚ → ℚ) (N : Nat) (socks : List Int) (timeout : ℚ)
    (sec usec : long) (hl : ∀ x ∈ socks, 0 ≤ x ∧ x < N) (hN : (N : Int) ≤ INT_MAX)
    (hsec : double_to_long timeout = some sec)
    (husec : double_to_long (fl (fl (timeout - fl ((sec : Int) : ℚ)) * fl 1000000)) = some usec) :
    ∃ (bound : Int) (set : fd_set N),
      (∀ select : SelectFn N, twrapMultiSelect fl N select socks socks.length timeout
        = some (select bound (some set) none none ⟨sec, usec⟩)) ∧
      (∀ i : Fin N, i ∈ set ↔ ((i : Nat) : Int) ∈ socks) ∧
      (socks = [] → bound = 0) ∧
      (socks ≠ [] → ∃ m ∈ socks, (∀ x ∈ socks, x ≤ m) ∧ bound = 1 + m) := by
  obtain ⟨set, hloop, hmem⟩ := multiSelectLoop_eq socks hl [] (-1) (FD_ZERO N)
  simp only [List.nil_append, List.length_nil] at hloop
  obtain ⟨h1, h2, h3⟩ := foldl_max_ge socks (-1)
  have hltN : socks.foldl (fun m s => if s > m then s else m) (-1) < N := by
    rcases h3 with h3 | h3
    · rw [h3]; omega
    · exact (hl _ h3).2
  have hadd := int_add_one _ N h1 hltN hN
  refine ⟨socks.foldl (fun m s => if s > m then s else m) (-1) + 1, set, ?_, ?_, ?_, ?_⟩
  · intro select
    simp only [twrapMultiSelect, Int.toNat_ofNat, hloop, hsec, husec, hadd]
  · intro i; rw [hmem]; simp [FD_ZERO]
  · intro hnil; subst hnil; simp
  · intro hne
    obtain ⟨y, hy⟩ := List.exists_mem_of_ne_nil socks hne
    have hy0 := (hl y hy).1
    have hyM := h2 y hy
    rcases h3 with h3 | h3
    · omega
    · exact ⟨_, h3, h2, by omega⟩

/-- The `timeval` computed in binary64 arithmetic from a `double` in `[0, 2 ^ 63)`. -/
theorem timeval_ieee (t : ℚ) (hd : isDouble t) (h0 : 0 ≤ t) (h63 : t < 2 ^ 63) :
    ∃ sec usec : long,
      double_to_long t = some sec ∧
      double_to_long (roundDouble (roundDouble (t - roundDouble ((sec : Int) : ℚ))
          * roundDouble 1000000)) = some usec ∧
      (sec : Int) = ⌊t⌋ ∧
      (usec : Int) = ⌊roundDouble ((t - (⌊t⌋ : ℚ)) * 1000000)⌋ ∧
      0 ≤ (usec : Int) ∧ (usec : Int) ≤ 999999 ∧
      ⌊(t - (⌊t⌋ : ℚ)) * 1000000⌋ ≤ (usec : Int) ∧
      (usec : Int) ≤ ⌊(t - (⌊t⌋ : ℚ)) * 1000000⌋ + 1 := by
  have e1 : roundDouble ((⌊t⌋ : Int) : ℚ) = ⌊t⌋ :=
    roundDouble_of_isDouble _ (isDouble_floor t hd h0)
  obtain ⟨hfd, hfle⟩ := isDouble_fract t hd h0
  have e2 : roundDouble (t - (⌊t⌋ : ℚ)) = t - ⌊t⌋ := roundDouble_of_isDouble _ hfd
  have e3 : roundDouble 1000000 = 1000000 :=
    roundDouble_of_isDouble _ ⟨1000000, 0, by norm_num, by norm_num, by norm_num, by norm_num⟩
  have hf0 : (0 : ℚ) ≤ t - ⌊t⌋ := by linarith [Int.floor_le t]
  have hx0 : (0 : ℚ) ≤ (t - ⌊t⌋) * 1000000 := by positivity
  have hx1 : (t - (⌊t⌋ : ℚ)) * 1000000 ≤ 1000000 - 1000000 / 2 ^ 53 := by
    have : (t - (⌊t⌋ : ℚ)) * 1000000 ≤ (1 - 1 / 2 ^ 53) * 1000000 :=
      mul_le_mul_of_nonneg_right hfle (by norm_num)
    linarith
  have hlt := roundDouble_lt_million _ hx0 hx1
  obtain ⟨hb1, hb2⟩ := roundDouble_floor_bounds _ hx0 (by norm_num at hx1 ⊢; linarith)
  have hfx0 : 0 ≤ ⌊(t - (⌊t⌋ : ℚ)) * 1000000⌋ := Int.floor_nonneg.mpr hx0
  have hy0 : (0 : ℚ) ≤ roundDouble ((t - (⌊t⌋ : ℚ)) * 1000000) := by
    have : (0 : ℚ) ≤ (⌊(t - (⌊t⌋ : ℚ)) * 1000000⌋ : ℚ) := by exact_mod_cast hfx0
    linarith
  obtain ⟨sec, hsec, hsv⟩ := double_to_long_of_nonneg t h0 h63
  obtain ⟨usec, husec, huv⟩ := double_to_long_of_nonneg _ hy0 (lt_trans hlt (by norm_num))
  refine ⟨sec, usec, hsec, ?_, hsv, huv, ?_, ?_, ?_, ?_⟩
  · rw [hsv, e1, e2, e3]; exact husec
  · rw [huv]; exact Int.floor_nonneg.mpr hy0
  · rw [huv]
    have : ⌊roundDouble ((t - (⌊t⌋ : ℚ)) * 1000000)⌋ < 1000000 :=
      Int.floor_lt.mpr (by push_cast; exact hlt)
    omega
  · rw [huv]; exact Int.le_floor.mpr hb1
  · rw [huv]
    have h := Int.floor_le (roundDouble ((t - (⌊t⌋ : ℚ)) * 1000000))
    have : ((⌊roundDouble ((t - (⌊t⌋ : ℚ)) * 1000000)⌋ : Int) : ℚ)
        ≤ ((⌊(t - (⌊t⌋ : ℚ)) * 1000000⌋ + 1 : Int) : ℚ) := by push_cast; linarith
    exact_mod_cast this

/-- The value `doubleThreeTenths` is a `double`. -/
theorem isDouble_threeTenths : isDouble doubleThreeTenths :=
  ⟨5404319552844595, -54, by norm_num, by norm_num, by norm_num, by
    unfold doubleThreeTenths; norm_num [zpow_neg]⟩

/-- The floor of `doubleThreeTenths` is 0. -/
theorem floor_threeTenths : ⌊doubleThreeTenths⌋ = 0 := by
  rw [Int.floor_eq_iff]
  unfold doubleThreeTenths
  constructor <;> norm_num

/-- The product of `doubleThreeTenths` and 1000000 rounds to 300000. -/
theorem roundDouble_threeTenths_usec :
    roundDouble ((doubleThreeTenths - ((0 : Int) : ℚ)) * 1000000) = 300000 := by
  have hx : (doubleThreeTenths - ((0 : Int) : ℚ)) * 1000000
      = 5404319552844595 * 1000000 / 2 ^ 54 := by
    unfold doubleThreeTenths; norm_num
  rw [hx]
  have hne : (5404319552844595 * 1000000 / 2 ^ 54 : ℚ) ≠ 0 := by norm_num
  have he : doubleExponent (5404319552844595 * 1000000 / 2 ^ 54 : ℚ) = 18 - 52 := by
    apply doubleExponent_eq
    · rw [abs_of_nonneg (by norm_num)]; norm_num
    · rw [abs_of_nonneg (by norm_num)]; norm_num
    · norm_num
  unfold roundDouble
  rw [if_neg hne, he]
  have hr : roundNearestEven ((5404319552844595 * 1000000 / 2 ^ 54 : ℚ) / 2 ^ ((18 : ℤ) - 52))
      = 5153960755200000 := by
    apply le_antisymm
    · apply roundNearestEven_le_of_lt_add_half
      norm_num
    · apply le_roundNearestEven_of_sub_half_lt
      norm_num
  rw [hr]
  norm_num


/-! ## The claims about `twrapSocket` -/

/-- C1: clean-up-then-fail.  If `socket()` was called and produced a descriptor
(a value other than `-1`) and `twrapSocket` returns `-1`, then the trace contains
`close` of that descriptor exactly once and no `close` of anything else; and if
`twrapSocket` returns a value other than `-1`, the trace contains no `close`. -/
theorem C1_cleanup_then_fail (K : SysConsts) (os : OSOutcomes) (block nagle mode : Int)
    (host serv : Option String) :
    ((∃ f t p, Call.socket f t p ∈ (twrapSocket K os block nagle mode host serv).2) →
        os.socket ≠ -1 → (twrapSocket K os block nagle mode host serv).1 = -1 →
        (twrapSocket K os block nagle mode host serv).2.count (Call.close os.socket) = 1 ∧
        (∀ d, Call.close d ∈ (twrapSocket K os block nagle mode host serv).2 → d = os.socket)) ∧
    ((twrapSocket K os block nagle mode host serv).1 ≠ -1 →
        ∀ d, Call.close d ∉ (twrapSocket K os block nagle mode host serv).2) := by
  have h := twrapSocket_run K os block nagle mode host serv
  generalize twrapSocket K os block nagle mode host serv = r at h ⊢
  have hc := close_not_mem_setupCalls K os nagle mode host serv
  have hc0 := List.count_eq_zero.mpr (hc os.socket)
  cases h <;> simp_all [List.count_cons, List.count_append]

/-- Witness of C1: a blocking connect that fails on descriptor 3 returns `-1`
after closing descriptor 3 exactly once. -/
theorem C1_cleanup_then_fail_witness :
    (twrapSocket linuxConsts osConnectFails TWRAP_BLOCK 0 TWRAP_CONNECT none (some "80")).2.count
        (Call.close 3) = 1 ∧
    (∀ d, Call.close d ∈
        (twrapSocket linuxConsts osConnectFails TWRAP_BLOCK 0 TWRAP_CONNECT none (some "80")).2 →
      d = 3) :=
  (C1_cleanup_then_fail linuxConsts osConnectFails TWRAP_BLOCK 0 TWRAP_CONNECT none
    (some "80")).1 ⟨2, 1, 6, by decide⟩ (by decide) (by decide)

/-- C2: failure characterisation.  For `block` in {`TWRAP_NOBLOCK`, `TWRAP_BLOCK`}
and `mode` in {`TWRAP_LISTEN`, `TWRAP_CONNECT`}, `twrapSocket` returns `-1` if and
only if resolution fails, or socket creation fails, or (listen mode and `bind` or
`listen` fails), or (non-blocking and the switch to non-blocking fails), or
(connect mode, blocking and `connect` fails); otherwise it returns the descriptor
produced by `socket()`.  In particular a failed `connect` on a non-blocking socket
still returns the descriptor. -/
theorem C2_failure_characterisation (K : SysConsts) (os : OSOutcomes)
    (block nagle mode : Int) (host serv : Option String)
    (hblock : block = TWRAP_NOBLOCK ∨ block = TWRAP_BLOCK)
    (hmode : mode = TWRAP_LISTEN ∨ mode = TWRAP_CONNECT) :
    ((twrapSocket K os block nagle mode host serv).1 = -1 ↔
      (os.getaddrinfo ≠ 0 ∨ os.socket = -1 ∨
        (mode = TWRAP_LISTEN ∧ (os.bind ≠ 0 ∨ os.listen ≠ 0)) ∨
        (block = TWRAP_NOBLOCK ∧ os.fcntl = -1) ∨
        (mode = TWRAP_CONNECT ∧ block = TWRAP_BLOCK ∧ os.connect ≠ 0))) ∧
    ((twrapSocket K os block nagle mode host serv).1 ≠ -1 →
      (twrapSocket K os block nagle mode host serv).1 = os.socket) ∧
    (mode = TWRAP_CONNECT → block = TWRAP_NOBLOCK → os.getaddrinfo = 0 →
      os.socket ≠ -1 → os.fcntl ≠ -1 → os.connect ≠ 0 →
      (twrapSocket K os block nagle mode host serv).1 = os.socket) := by
  have h := twrapSocket_run K os block nagle mode host serv
  generalize twrapSocket K os block nagle mode host serv = r at h ⊢
  cases h <;> simp only [TWRAP_NOBLOCK, TWRAP_BLOCK, TWRAP_LISTEN, TWRAP_CONNECT] at * <;>
    rcases hblock with hb | hb <;> rcases hmode with hm | hm <;> simp_all

/-- Witness of C2: a non-blocking connect whose `connect` call fails returns the
descriptor 3 produced by `socket()`. -/
theorem C2_failure_characterisation_witness :
    (twrapSocket linuxConsts osConnectFails TWRAP_NOBLOCK 0 TWRAP_CONNECT none (some "80")).1
      = osConnectFails.socket :=
  (C2_failure_characterisation linuxConsts osConnectFails TWRAP_NOBLOCK 0 TWRAP_CONNECT none
    (some "80") (Or.inl rfl) (Or.inr rfl)).2.2 rfl rfl (by decide) (by decide) (by decide)
    (by decide)

/-- C3 at a failing input: resolution succeeds, `connect` fails on a blocking
socket, `twrapSocket` returns `-1` and its trace ends with `close`: it contains no
`freeaddrinfo`, so the candidate list is not released. -/
theorem C3_candidate_list_not_released_on_failure :
    osConnectFails.getaddrinfo = 0 ∧
    twrapSocket linuxConsts osConnectFails TWRAP_BLOCK 0 TWRAP_CONNECT none (some "80")
      = (-1, [Call.getaddrinfo none (some "80") ⟨0, 0, 1, 0, 0, none, none⟩,
          Call.socket 2 1 6, Call.setsockopt 3 6 1 0,
          Call.connect 3 (some [2, 0, 0, 80, 127, 0, 0, 1]) 16, Call.close 3]) ∧
    (∀ c ∈ (twrapSocket linuxConsts osConnectFails TWRAP_BLOCK 0 TWRAP_CONNECT none
        (some "80")).2, c.fn ≠ Sys.freeaddrinfo) := by
  decide

/-- C5: the option steps are non-fatal.  Replacing the values returned by the
`IPV6_V6ONLY` and `TCP_NODELAY` calls of `setsockopt` by any other values `a` and
`b`, every other outcome being the same, changes neither the value returned nor
the trace of calls. -/
theorem C5_option_steps_non_fatal (K : SysConsts) (os : OSOutcomes)
    (block nagle mode : Int) (host serv : Option String) (a b : Int) :
    twrapSocket K { os with setsockopt_v6only := a, setsockopt_nodelay := b }
        block nagle mode host serv
      = twrapSocket K os block nagle mode host serv := by
  rfl

/-- C6: resolution hints and candidate choice.  The first call is `getaddrinfo`
on the given host and service with hints whose flags are `AI_PASSIVE` when the
mode is `TWRAP_LISTEN` and `0` otherwise, whose family is `AF_UNSPEC` and whose
socket type is `SOCK_STREAM`.  The socket is created from the first candidate:
`socket` is called with its family, type and protocol exactly when resolution
succeeds.  It is bound or connected to the first candidate: `bind` is called with
the address and length of the first candidate exactly when the descriptor exists
and the mode is `TWRAP_LISTEN`, and `connect` with the same address and length
exactly when the descriptor exists, the mode is `TWRAP_CONNECT` and the switch to
non-blocking mode has not failed.  No `socket`, `bind` or `connect` call takes other
arguments, and the candidates after the first change neither the value returned
nor any call other than `freeaddrinfo`. -/
theorem C6_hints_and_first_candidate (K : SysConsts) (os : OSOutcomes)
    (block nagle mode : Int) (host serv : Option String) :
    (twrapSocket K os block nagle mode host serv).2.head?
      = some (Call.getaddrinfo host serv (resolutionHint K mode)) ∧
    (resolutionHint K mode).ai_flags = (if mode = TWRAP_LISTEN then K.AI_PASSIVE else 0) ∧
    (resolutionHint K mode).ai_family = K.AF_UNSPEC ∧
    (resolutionHint K mode).ai_socktype = K.SOCK_STREAM ∧
    (Call.socket os.result.ai_family os.result.ai_socktype os.result.ai_protocol
        ∈ (twrapSocket K os block nagle mode host serv).2 ↔
      os.getaddrinfo = 0) ∧
    (Call.bind os.socket os.result.ai_addr os.result.ai_addrlen
        ∈ (twrapSocket K os block nagle mode host serv).2 ↔
      (os.getaddrinfo = 0 ∧ os.socket ≠ -1 ∧ mode = TWRAP_LISTEN)) ∧
    (Call.connect os.socket os.result.ai_addr os.result.ai_addrlen
        ∈ (twrapSocket K os block nagle mode host serv).2 ↔
      (os.getaddrinfo = 0 ∧ os.socket ≠ -1 ∧ mode = TWRAP_CONNECT ∧
        ¬ (block = TWRAP_NOBLOCK ∧ os.fcntl = -1))) ∧
    (∀ c ∈ (twrapSocket K os block nagle mode host serv).2,
      (c.fn = Sys.getaddrinfo → c = Call.getaddrinfo host serv (resolutionHint K mode)) ∧
      (c.fn = Sys.socket →
        c = Call.socket os.result.ai_family os.result.ai_socktype os.result.ai_protocol) ∧
      (c.fn = Sys.bind → c = Call.bind os.socket os.result.ai_addr os.result.ai_addrlen) ∧
      (c.fn = Sys.connect →
        c = Call.connect os.socket os.result.ai_addr os.result.ai_addrlen)) ∧
    (∀ rest : List addrinfo,
      (twrapSocket K { os with result_next := rest } block nagle mode host serv).1
        = (twrapSocket K os block nagle mode host serv).1 ∧
      (twrapSocket K { os with result_next := rest } block nagle mode host serv).2.filter
          (fun c => decide (c.fn ≠ Sys.freeaddrinfo))
        = (twrapSocket K os block nagle mode host serv).2.filter
          (fun c => decide (c.fn ≠ Sys.freeaddrinfo))) := by
  have hb := bind_not_mem_setupCalls K os nagle mode host serv
  have hc := connect_not_mem_setupCalls K os nagle mode host serv
  have hso := socket_mem_setupCalls K os nagle mode host serv
  refine ⟨?_, rfl, rfl, rfl, ?_, ?_, ?_, ?_, ?_⟩
  · have h := twrapSocket_run K os block nagle mode host serv
    generalize twrapSocket K os block nagle mode host serv = r at h ⊢
    cases h <;> simp [setupCalls]
  · have h := twrapSocket_run K os block nagle mode host serv
    generalize twrapSocket K os block nagle mode host serv = r at h ⊢
    cases h <;> simp_all
  · have h := twrapSocket_run K os block nagle mode host serv
    generalize twrapSocket K os block nagle mode host serv = r at h ⊢
    cases h <;> simp only [TWRAP_NOBLOCK, TWRAP_BLOCK, TWRAP_LISTEN, TWRAP_CONNECT] at * <;>
      simp_all
  · have h := twrapSocket_run K os block nagle mode host serv
    generalize twrapSocket K os block nagle mode host serv = r at h ⊢
    cases h <;> simp only [TWRAP_NOBLOCK, TWRAP_BLOCK, TWRAP_LISTEN, TWRAP_CONNECT] at * <;>
      simp_all
  · intro c hc
    rcases mem_trace_cases K os block nagle mode host serv c hc with
      h | h | h | h | h | h | h | h | h <;>
      first | (subst h; simp [Call.fn]) | simp [h]
  · intro rest
    exact twrapSocket_result_next K os block nagle mode host serv rest

/-- Witness of C6: a blocking connect with every call succeeding creates the
socket from the first candidate and connects it to the first candidate. -/
theorem C6_hints_and_first_candidate_witness :
    Call.socket osV6.result.ai_family osV6.result.ai_socktype osV6.result.ai_protocol
      ∈ (twrapSocket linuxConsts osV6 TWRAP_BLOCK 1 TWRAP_CONNECT none (some "80")).2 ∧
    Call.connect osV6.socket osV6.result.ai_addr osV6.result.ai_addrlen
      ∈ (twrapSocket linuxConsts osV6 TWRAP_BLOCK 1 TWRAP_CONNECT none (some "80")).2 :=
  ⟨(C6_hints_and_first_candidate linuxConsts osV6 TWRAP_BLOCK 1 TWRAP_CONNECT none
      (some "80")).2.2.2.2.1.mpr (by decide),
   (C6_hints_and_first_candidate linuxConsts osV6 TWRAP_BLOCK 1 TWRAP_CONNECT none
      (some "80")).2.2.2.2.2.2.1.mpr (by decide)⟩

/-- C4: ordering of the configuration steps.  In the trace of any call, every
`bind` and every `listen` comes before every `fcntl` (the switch to non-blocking
mode) and every `fcntl` before every `connect`; a `listen` call is
`listen(sock, 64)` and is made only when `bind` returned 0, after that `bind`;
and when the switch to non-blocking mode is made and fails, no `connect` is made. -/
theorem C4_ordering_of_steps (K : SysConsts) (os : OSOutcomes) (block nagle mode : Int)
    (host serv : Option String) :
    Precedes Sys.bind Sys.fcntl (twrapSocket K os block nagle mode host serv).2 ∧
    Precedes Sys.listen Sys.fcntl (twrapSocket K os block nagle mode host serv).2 ∧
    Precedes Sys.fcntl Sys.connect (twrapSocket K os block nagle mode host serv).2 ∧
    (∀ c ∈ (twrapSocket K os block nagle mode host serv).2,
      c.fn = Sys.listen → c = Call.listen os.socket 64) ∧
    (Sys.listen ∈ (twrapSocket K os block nagle mode host serv).2.map Call.fn →
      os.bind = 0 ∧
      Call.bind os.socket os.result.ai_addr os.result.ai_addrlen
        ∈ (twrapSocket K os block nagle mode host serv).2 ∧
      Precedes Sys.bind Sys.listen (twrapSocket K os block nagle mode host serv).2) ∧
    (Sys.fcntl ∈ (twrapSocket K os block nagle mode host serv).2.map Call.fn →
      os.fcntl = -1 →
      Sys.connect ∉ (twrapSocket K os block nagle mode host serv).2.map Call.fn) := by
  refine ⟨?_, ?_, ?_, ?_, ?_, ?_⟩
  · apply precedes_of_precedesB
    have h := twrapSocket_run K os block nagle mode host serv
    generalize twrapSocket K os block nagle mode host serv = r at h ⊢
    cases h <;> simp only [List.map_append, map_fn_setupCalls, List.map_cons, List.map_nil,
      Call.fn] <;> (try split_ifs) <;> decide
  · apply precedes_of_precedesB
    have h := twrapSocket_run K os block nagle mode host serv
    generalize twrapSocket K os block nagle mode host serv = r at h ⊢
    cases h <;> simp only [List.map_append, map_fn_setupCalls, List.map_cons, List.map_nil,
      Call.fn] <;> (try split_ifs) <;> decide
  · apply precedes_of_precedesB
    have h := twrapSocket_run K os block nagle mode host serv
    generalize twrapSocket K os block nagle mode host serv = r at h ⊢
    cases h <;> simp only [List.map_append, map_fn_setupCalls, List.map_cons, List.map_nil,
      Call.fn] <;> (try split_ifs) <;> decide
  · intro c hc
    rcases mem_trace_cases K os block nagle mode host serv c hc with
      h | h | h | h | h | h | h | h | h <;>
      first | (subst h; simp [Call.fn]) | simp [h]
  · have h := twrapSocket_run K os block nagle mode host serv
    generalize twrapSocket K os block nagle mode host serv = r at h ⊢
    intro hl
    refine ⟨?_, ?_, ?_⟩
    · cases h <;> simp only [List.map_append, map_fn_setupCalls, List.map_cons, List.map_nil,
        Call.fn] at hl <;> (try split_ifs at hl) <;> first | assumption | (simp at hl)
    · cases h <;> simp only [List.map_append, map_fn_setupCalls, List.map_cons, List.map_nil,
        Call.fn] at hl <;> (try split_ifs at hl) <;> first | (simp at hl; done) | simp
    · apply precedes_of_precedesB
      cases h <;> simp only [List.map_append, map_fn_setupCalls, List.map_cons, List.map_nil,
        Call.fn] <;> (try split_ifs) <;> decide
  · have h := twrapSocket_run K os block nagle mode host serv
    generalize twrapSocket K os block nagle mode host serv = r at h ⊢
    intro hfc hf
    cases h <;> simp only [List.map_append, map_fn_setupCalls, List.map_cons, List.map_nil,
      Call.fn] at hfc ⊢ <;> (try split_ifs at hfc ⊢) <;>
      first | decide | exact absurd hf (by assumption) | simp at hfc

/-- Witness of C4: a non-blocking listening socket is bound, then put in the
listening state, then switched to non-blocking mode. -/
theorem C4_ordering_of_steps_witness :
    osAllOk.bind = 0 ∧
    Call.bind osAllOk.socket osAllOk.result.ai_addr osAllOk.result.ai_addrlen
      ∈ (twrapSocket linuxConsts osAllOk TWRAP_NOBLOCK 0 TWRAP_LISTEN none (some "80")).2 ∧
    Precedes Sys.bind Sys.listen
      (twrapSocket linuxConsts osAllOk TWRAP_NOBLOCK 0 TWRAP_LISTEN none (some "80")).2 :=
  (C4_ordering_of_steps linuxConsts osAllOk TWRAP_NOBLOCK 0 TWRAP_LISTEN none
    (some "80")).2.2.2.2.1 (by decide)

/-- C9: the dual-stack step.  Provided the protocol levels `IPPROTO_IPV6` and
`IPPROTO_TCP` are different numbers, in every call in which a descriptor is created
(`getaddrinfo` returns 0 and `socket` a value other than `-1`): the trace contains
`setsockopt(sock, IPPROTO_IPV6, IPV6_V6ONLY, 0)` if and only if the family of the
first candidate is `AF_INET6`; when it is not, the trace contains no `setsockopt`
of `IPV6_V6ONLY` on any descriptor with any value; and that call comes before
every `bind` and every `connect`. -/
theorem C9_dual_stack_step (K : SysConsts) (os : OSOutcomes) (block nagle mode : Int)
    (host serv : Option String) (hK : K.IPPROTO_IPV6 ≠ K.IPPROTO_TCP)
    (hg : os.getaddrinfo = 0) (hs : os.socket ≠ -1) :
    (Call.setsockopt os.socket K.IPPROTO_IPV6 K.IPV6_V6ONLY 0
        ∈ (twrapSocket K os block nagle mode host serv).2 ↔
      os.result.ai_family = K.AF_INET6) ∧
    (os.result.ai_family ≠ K.AF_INET6 → ∀ d v,
      Call.setsockopt d K.IPPROTO_IPV6 K.IPV6_V6ONLY v
        ∉ (twrapSocket K os block nagle mode host serv).2) ∧
    (∀ (i j : Nat) (cj : Call),
      (twrapSocket K os block nagle mode host serv).2[i]?
        = some (Call.setsockopt os.socket K.IPPROTO_IPV6 K.IPV6_V6ONLY 0) →
      (twrapSocket K os block nagle mode host serv).2[j]? = some cj →
      (cj.fn = Sys.bind ∨ cj.fn = Sys.connect) → i < j) := by
  have hmem : ∀ d v, Call.setsockopt d K.IPPROTO_IPV6 K.IPV6_V6ONLY v
      ∈ (twrapSocket K os block nagle mode host serv).2 ↔
        (os.result.ai_family = K.AF_INET6 ∧ d = os.socket ∧ v = 0) := by
    intro d v
    have h := twrapSocket_run K os block nagle mode host serv
    generalize twrapSocket K os block nagle mode host serv = r at h ⊢
    have hv := v6only_mem_setupCalls_iff K os nagle mode host serv hK d v
    cases h <;> first | contradiction | simp [hv]
  have hord : Precedes Sys.setsockopt Sys.bind (twrapSocket K os block nagle mode host serv).2 ∧
      Precedes Sys.setsockopt Sys.connect
        (twrapSocket K os block nagle mode host serv).2 := by
    have h := twrapSocket_run K os block nagle mode host serv
    generalize twrapSocket K os block nagle mode host serv = r at h ⊢
    constructor <;> apply precedes_of_precedesB <;>
      cases h <;> simp only [List.map_append, map_fn_setupCalls, List.map_cons, List.map_nil,
        Call.fn] <;> (try split_ifs) <;> decide
  refine ⟨?_, ?_, ?_⟩
  · rw [hmem]; simp
  · intro h6 d v hc
    exact h6 ((hmem d v).mp hc).1
  · intro i j cj hi hj hfn
    rcases hfn with hb | hc
    · exact hord.1 i j _ cj hi hj rfl hb
    · exact hord.2 i j _ cj hi hj rfl hc

/-- Witness of C9: with the Linux constants and an IPv6 first candidate, the
`IPV6_V6ONLY` option is cleared on descriptor 3. -/
theorem C9_dual_stack_step_witness :
    Call.setsockopt osV6.socket linuxConsts.IPPROTO_IPV6 linuxConsts.IPV6_V6ONLY 0
        ∈ (twrapSocket linuxConsts osV6 TWRAP_BLOCK 1 TWRAP_CONNECT none (some "80")).2 ↔
      osV6.result.ai_family = linuxConsts.AF_INET6 :=
  (C9_dual_stack_step linuxConsts osV6 TWRAP_BLOCK 1 TWRAP_CONNECT none (some "80")
    (by decide) (by decide) (by decide)).1

/-! ## The claims about `twrapSelect` and `twrapMultiSelect` -/

/-- C7 as stated fails.  With `FD_SETSIZE = 1024`, the handle `1024 >= 0` makes
`FD_SET` write outside the `fd_set`, and the timeout `10 ^ 19` does not convert to
`tv_sec`: in both cases `twrapSelect` has no defined result. -/
theorem C7_select_contract_counterexample :
    twrapSelect roundDouble 1024 (countingSelect 1024 false (fun _ => true)) 1024 0 = none ∧
    twrapSelect roundDouble 1024 (countingSelect 1024 false (fun _ => true)) 3 (10 ^ 19)
      = none := by
  constructor
  · simp [twrapSelect, FD_SET]
  · have h : double_to_long (10 ^ 19 : ℚ) = none := by
      have hc : Int.tdiv (10 ^ 19 : ℚ).num (10 ^ 19 : ℚ).den = 10 ^ 19 := by
        rw [tdiv_num_den_of_nonneg _ (by norm_num), Int.floor_eq_iff]
        constructor <;> norm_num
      unfold double_to_long
      rw [dif_neg]
      rw [hc]
      unfold LONG_MAX
      norm_num
    have hset : FD_SET 3 (FD_ZERO 1024) = some {⟨3, by norm_num⟩} := by
      unfold FD_SET FD_ZERO
      rw [dif_pos (by norm_num)]
      rfl
    simp only [twrapSelect, hset, h]

/-- C7, amended: return contract of `twrapSelect`.  For a handle `s` with
`0 <= s < FD_SETSIZE` (`FD_SETSIZE` being at most `INT_MAX`) and a timeout whose
seconds and microsecond remainder convert to the `long` fields of `timeval`,
`twrapSelect` calls the wait with descriptor bound `s + 1`, a read set whose
members are exactly `s`, no write set and no exception set, and returns the result
of the wait unchanged; so, when the wait returns the number of ready watched
descriptors or `-1` on error, `twrapSelect` returns `-1` on error, `1` when `s` is
readable, `0` otherwise, and no other value. -/
theorem C7_select_contract (fl : ℚ → ℚ) (FD_SETSIZE : Nat) (s : Int) (timeout : ℚ)
    (sec usec : long) (hs0 : 0 ≤ s) (hsN : s < FD_SETSIZE)
    (hN : (FD_SETSIZE : Int) ≤ INT_MAX)
    (hsec : double_to_long timeout = some sec)
    (husec : double_to_long (fl (fl (timeout - fl ((sec : Int) : ℚ)) * fl 1000000)) = some usec) :
    (∃ set : fd_set FD_SETSIZE,
      (∀ i : Fin FD_SETSIZE, i ∈ set ↔ ((i : Nat) : Int) = s) ∧
      ∀ select : SelectFn FD_SETSIZE, twrapSelect fl FD_SETSIZE select s timeout
        = some (select (s + 1) (some set) none none ⟨sec, usec⟩)) ∧
    (∀ (err : Bool) (readable : Int → Bool),
      twrapSelect fl FD_SETSIZE (countingSelect FD_SETSIZE err readable) s timeout
        = some (if err then -1 else if readable s then 1 else 0)) ∧
    (∀ (err : Bool) (readable : Int → Bool),
      twrapSelect fl FD_SETSIZE (countingSelect FD_SETSIZE err readable) s timeout = some 1 ∨
      twrapSelect fl FD_SETSIZE (countingSelect FD_SETSIZE err readable) s timeout = some 0 ∨
      twrapSelect fl FD_SETSIZE (countingSelect FD_SETSIZE err readable) s timeout
        = some (-1)) := by
  have key : ∀ (err : Bool) (readable : Int → Bool),
      twrapSelect fl FD_SETSIZE (countingSelect FD_SETSIZE err readable) s timeout
        = some (if err then -1 else if readable s then 1 else 0) := by
    intro err readable
    rw [twrapSelect_eq fl FD_SETSIZE s timeout sec usec hs0 hsN hN hsec husec,
      countingSelect_single FD_SETSIZE s hs0 hsN]
  refine ⟨⟨{⟨s.toNat, by omega⟩}, ?_, ?_⟩, key, ?_⟩
  · intro i
    rw [Finset.mem_singleton, Fin.ext_iff]
    simp only []
    omega
  · intro select
    exact twrapSelect_eq fl FD_SETSIZE s timeout sec usec hs0 hsN hN hsec husec select
  · intro err readable
    rw [key]
    cases err <;> cases readable s <;> simp

/-- Witness of C7: with `FD_SETSIZE = 1024` and binary64 arithmetic, waiting on
handle 3 for 1.5 seconds when nothing is readable and no error occurs returns 0. -/
theorem C7_select_contract_witness :
    twrapSelect roundDouble 1024 (countingSelect 1024 false (fun _ => false)) 3 (3 / 2)
      = some 0 := by
  obtain ⟨sec, usec, hsec, husec, -⟩ :=
    timeval_ieee (3 / 2) ⟨3, -1, by norm_num, by norm_num, by norm_num, by norm_num⟩
      (by norm_num) (by norm_num)
  exact (C7_select_contract roundDouble 1024 3 (3 / 2) sec usec (by decide) (by decide)
    (by decide) hsec husec).2.1 false (fun _ => false)

/-- C8 as stated fails.  For the `double` nearest to 0.3, a non-negative timeout,
`twrapSelect` passes `tv_usec = 300000`, whereas
`floor ((t - tv_sec) * 1000000) = 299999`, and `tv_sec + tv_usec / 1000000 <= t` is
false: the product is rounded to a `double` before it is truncated. -/
theorem C8_timeout_conversion_counterexample :
    isDouble doubleThreeTenths ∧ 0 ≤ doubleThreeTenths ∧
    twrapSelect roundDouble 1024 (fun _ _ _ _ tv => (tv.tv_usec : Int)) 3 doubleThreeTenths
      = some 300000 ∧
    ⌊(doubleThreeTenths - (⌊doubleThreeTenths⌋ : ℚ)) * 1000000⌋ = 299999 ∧
    ¬ ((⌊doubleThreeTenths⌋ : ℚ) + 300000 / 1000000 ≤ doubleThreeTenths) := by
  have h0 : (0 : ℚ) ≤ doubleThreeTenths := by unfold doubleThreeTenths; norm_num
  have h63 : doubleThreeTenths < 2 ^ 63 := by unfold doubleThreeTenths; norm_num
  obtain ⟨sec, usec, hsec, husec, -, huv, -⟩ :=
    timeval_ieee doubleThreeTenths isDouble_threeTenths h0 h63
  refine ⟨isDouble_threeTenths, h0, ?_, ?_, ?_⟩
  · rw [twrapSelect_eq roundDouble 1024 3 doubleThreeTenths sec usec (by decide) (by decide)
      (by decide) hsec husec]
    simp only [huv, floor_threeTenths, roundDouble_threeTenths_usec]
    norm_num
  · rw [floor_threeTenths, Int.floor_eq_iff]
    unfold doubleThreeTenths
    constructor <;> norm_num
  · rw [floor_threeTenths]
    unfold doubleThreeTenths
    norm_num

/-- C8, amended: timeout conversion.  For a timeout `t` that is a `double` with
`0 <= t < 2 ^ 63`, `twrapSelect` and `twrapMultiSelect` both pass the same
`timeval` to the wait, with `tv_sec = floor t` and
`tv_usec = floor (fl ((t - tv_sec) * 1000000))`, where `fl` rounds the exact
product to the nearest `double`; `0 <= tv_usec <= 999999`; `tv_usec` is
`floor ((t - tv_sec) * 1000000)` or that value plus one, so that
`tv_sec + (tv_usec - 1) / 1000000 <= t < tv_sec + (tv_usec + 1) / 1000000`; and a
timeout of 0 gives the pair (0, 0). -/
theorem C8_timeout_conversion (t : ℚ) (hd : isDouble t) (h0 : 0 ≤ t) (h63 : t < 2 ^ 63) :
    ∃ tv : timeval,
      (tv.tv_sec : Int) = ⌊t⌋ ∧
      (tv.tv_usec : Int) = ⌊roundDouble ((t - (⌊t⌋ : ℚ)) * 1000000)⌋ ∧
      (∀ (FD_SETSIZE : Nat) (s : Int), 0 ≤ s → s < FD_SETSIZE →
        (FD_SETSIZE : Int) ≤ INT_MAX →
        ∃ set : fd_set FD_SETSIZE, ∀ select : SelectFn FD_SETSIZE,
          twrapSelect roundDouble FD_SETSIZE select s t
            = some (select (s + 1) (some set) none none tv)) ∧
      (∀ (FD_SETSIZE : Nat) (socks : List Int),
        (∀ x ∈ socks, 0 ≤ x ∧ x < FD_SETSIZE) → (FD_SETSIZE : Int) ≤ INT_MAX →
        ∃ (n : Int) (set : fd_set FD_SETSIZE), ∀ select : SelectFn FD_SETSIZE,
          twrapMultiSelect roundDouble FD_SETSIZE select socks socks.length t
            = some (select n (some set) none none tv)) ∧
      0 ≤ (tv.tv_usec : Int) ∧ (tv.tv_usec : Int) ≤ 999999 ∧
      ((tv.tv_usec : Int) = ⌊(t - (⌊t⌋ : ℚ)) * 1000000⌋ ∨
        (tv.tv_usec : Int) = ⌊(t - (⌊t⌋ : ℚ)) * 1000000⌋ + 1) ∧
      (((tv.tv_sec : Int) : ℚ) + (((tv.tv_usec : Int) : ℚ) - 1) / 1000000 ≤ t) ∧
      (t < ((tv.tv_sec : Int) : ℚ) + (((tv.tv_usec : Int) : ℚ) + 1) / 1000000) ∧
      (t = 0 → (tv.tv_sec : Int) = 0 ∧ (tv.tv_usec : Int) = 0) := by
  obtain ⟨sec, usec, hsec, husec, hsv, huv, hu0, hu1, hlo, hhi⟩ := timeval_ieee t hd h0 h63
  have hle := Int.floor_le ((t - (⌊t⌋ : ℚ)) * 1000000)
  have hlt := Int.lt_floor_add_one ((t - (⌊t⌋ : ℚ)) * 1000000)
  have hloq : ((⌊(t - (⌊t⌋ : ℚ)) * 1000000⌋ : Int) : ℚ) ≤ ((usec : Int) : ℚ) := by
    exact_mod_cast hlo
  have hhiq : ((usec : Int) : ℚ) ≤ ((⌊(t - (⌊t⌋ : ℚ)) * 1000000⌋ : Int) : ℚ) + 1 := by
    exact_mod_cast hhi
  have hsq : ((sec : Int) : ℚ) = (⌊t⌋ : ℚ) := by rw [hsv]
  refine ⟨⟨sec, usec⟩, hsv, huv, ?_, ?_, hu0, hu1, ?_, ?_, ?_, ?_⟩
  · intro N s hs0 hsN hN
    exact ⟨_, fun select => twrapSelect_eq roundDouble N s t sec usec hs0 hsN hN hsec husec
      select⟩
  · intro N socks hl hN
    obtain ⟨n, set, h, -⟩ :=
      twrapMultiSelect_eq roundDouble N socks t sec usec hl hN hsec husec
    exact ⟨n, set, h⟩
  · show (usec : Int) = _ ∨ (usec : Int) = _
    omega
  · show ((sec : Int) : ℚ) + (((usec : Int) : ℚ) - 1) / 1000000 ≤ t
    rw [hsq]; linarith
  · show t < ((sec : Int) : ℚ) + (((usec : Int) : ℚ) + 1) / 1000000
    rw [hsq]; linarith
  · intro ht0
    subst ht0
    show (sec : Int) = 0 ∧ (usec : Int) = 0
    rw [hsv, huv]
    simp [roundDouble]

/-- Witness of C8: for the `double` nearest to 0.3, whose microsecond product is
rounded, and `FD_SETSIZE = 1024`, the wait called by `twrapSelect` on handle 3 gets
`tv_sec = floor t` and `tv_usec = floor (fl ((t - floor t) * 1000000))`. -/
theorem C8_timeout_conversion_witness :
    ∃ tv : timeval,
      (tv.tv_sec : Int) = ⌊doubleThreeTenths⌋ ∧
      (tv.tv_usec : Int)
        = ⌊roundDouble ((doubleThreeTenths - (⌊doubleThreeTenths⌋ : ℚ)) * 1000000)⌋ ∧
      ∃ set : fd_set 1024, ∀ select : SelectFn 1024,
        twrapSelect roundDouble 1024 select 3 doubleThreeTenths
          = some (select (3 + 1) (some set) none none tv) := by
  obtain ⟨tv, h1, h2, h3, -⟩ := C8_timeout_conversion doubleThreeTenths
    isDouble_threeTenths (by unfold doubleThreeTenths; norm_num)
    (by unfold doubleThreeTenths; norm_num)
  exact ⟨tv, h1, h2, h3 1024 3 (by decide) (by decide) (by decide)⟩

/-- C10 as stated fails.  With `FD_SETSIZE = 1024`, the list of the single
non-negative handle 5000 makes `FD_SET` write outside the `fd_set`:
`twrapMultiSelect` has no defined result. -/
theorem C10_multiselect_watched_set_counterexample :
    twrapMultiSelect roundDouble 1024 (countingSelect 1024 false (fun _ => true)) [5000] 1 0
      = none := by
  simp [twrapMultiSelect, multiSelectLoop, FD_SET]

/-- C10, amended: watched set of `twrapMultiSelect`.  For a list of handles `x`
with `0 <= x < FD_SETSIZE` (`FD_SETSIZE` being at most `INT_MAX`) whose length is
`socks_size`, and a timeout whose seconds and microsecond remainder convert to the
`long` fields of `timeval`, there are a set and a bound such that, whatever the
wait is, `twrapMultiSelect` returns the result of the wait on that bound and that
read set (no write set, no exception set); the set contains exactly the handles
of the list; for the empty list the set is empty and the bound is 0; otherwise the
bound is 1 + the maximum handle of the list. -/
theorem C10_multiselect_watched_set (fl : ℚ → ℚ) (FD_SETSIZE : Nat) (socks : List Int)
    (socks_size : Int) (timeout : ℚ) (sec usec : long)
    (hsize : socks_size = socks.length)
    (hl : ∀ x ∈ socks, 0 ≤ x ∧ x < FD_SETSIZE) (hN : (FD_SETSIZE : Int) ≤ INT_MAX)
    (hsec : double_to_long timeout = some sec)
    (husec : double_to_long (fl (fl (timeout - fl ((sec : Int) : ℚ)) * fl 1000000)) = some usec) :
    ∃ (bound : Int) (set : fd_set FD_SETSIZE),
      (∀ select : SelectFn FD_SETSIZE,
        twrapMultiSelect fl FD_SETSIZE select socks socks_size timeout
          = some (select bound (some set) none none ⟨sec, usec⟩)) ∧
      (∀ i : Fin FD_SETSIZE, i ∈ set ↔ ((i : Nat) : Int) ∈ socks) ∧
      (socks = [] → set = ∅ ∧ bound = 0) ∧
      (socks ≠ [] → ∃ m ∈ socks, (∀ x ∈ socks, x ≤ m) ∧ bound = 1 + m) := by
  subst hsize
  obtain ⟨bound, set, h1, h2, h3, h4⟩ :=
    twrapMultiSelect_eq fl FD_SETSIZE socks timeout sec usec hl hN hsec husec
  refine ⟨bound, set, h1, h2, ?_, h4⟩
  intro hnil
  refine ⟨?_, h3 hnil⟩
  subst hnil
  ext i
  simp [h2 i]

/-- Witness of C10: the handles 3, 5, 3 with `FD_SETSIZE = 1024`, binary64
arithmetic and a timeout of 0.25 seconds. -/
theorem C10_multiselect_watched_set_witness :
    ∃ (bound : Int) (set : fd_set 1024) (tv : timeval),
      (∀ select : SelectFn 1024,
        twrapMultiSelect roundDouble 1024 select [3, 5, 3] 3 (1 / 4)
          = some (select bound (some set) none none tv)) ∧
      (∀ i : Fin 1024, i ∈ set ↔ ((i : Nat) : Int) ∈ [3, 5, 3]) ∧
      (([3, 5, 3] : List Int) = [] → set = ∅ ∧ bound = 0) ∧
      (([3, 5, 3] : List Int) ≠ [] →
        ∃ m ∈ [3, 5, 3], (∀ x ∈ [3, 5, 3], x ≤ m) ∧ bound = 1 + m) := by
  obtain ⟨sec, usec, hsec, husec, -⟩ :=
    timeval_ieee (1 / 4) ⟨1, -2, by norm_num, by norm_num, by norm_num, by norm_num⟩
      (by norm_num) (by norm_num)
  obtain ⟨bound, set, h⟩ := C10_multiselect_watched_set roundDouble 1024 [3, 5, 3] 3 (1 / 4)
    sec usec (by decide) (by decide) (by decide) hsec husec
  exact ⟨bound, set, ⟨sec, usec⟩, h⟩

end Twrap
